import Mathlib

/-!
Shallow embedding of the tagged-resource cleanup sweeper
(`src/cleanup/cleanup_tagged_resources.py`) and of the create-or-get
provisioning helpers (`src/bedrock_agents/agent.py`).

The cloud is modelled as an explicit world state `AwsWorld`; every provider
call is a function `AwsWorld -> Res`, where `Res` carries the result value,
the world after the call, the list of effectful calls made (the trace), and
the Python-exception outcome.  Deterministic provider semantics follow the
error taxonomy the scripts rely on: deleting or reading an absent resource
raises a not-found fault, creating a resource that already exists raises a
conflict fault.
-/

namespace CleanupSpec

/-- Characters of a string split on the colon character, the character-level
model of the Python expression `arn.split(":")`. -/
def splitChars : List Char → List (List Char)
  | [] => [[]]
  | c :: rest =>
    if c = ':' then [] :: splitChars rest
    else
      match splitChars rest with
      | [] => [[c]]
      | g :: gs => (c :: g) :: gs

/-- Python `s.split(":")`. -/
def pySplit (s : String) : List String :=
  (splitChars s.data).map (fun l => ⟨l⟩)

/-- Characters of Python `":".join(parts)`. -/
def joinColonChars : List (List Char) → List Char
  | [] => []
  | [l] => l
  | l :: rest => l ++ ':' :: joinColonChars rest

/-- Python `":".join(parts)`. -/
def pyJoinColon (parts : List String) : String :=
  ⟨joinColonChars (parts.map String.data)⟩

/-- Result of the Python expression `re.match(r"^<pre>(.+)", s)` seen through
`group(1)`: `some g` holds the text captured by `(.+)` (the characters after
the literal prefix up to the first newline, nonempty), `none` means the regex
did not match. -/
def reMatch1 (pre s : String) : Option String :=
  if pre.data.isPrefixOf s.data then
    let rest := (s.data.drop pre.data.length).takeWhile (fun c => c ≠ '\n')
    if rest.isEmpty then none else some ⟨rest⟩
  else none

/-- Auxiliary recursion for Python `s.replace(pat, repl)` with a nonempty
pattern `p :: ps`: replaces every non-overlapping occurrence left to right. -/
def pyReplaceGo (p : Char) (ps : List Char) (repl : List Char) : List Char → List Char
  | [] => []
  | c :: rest =>
    if (p :: ps).isPrefixOf (c :: rest) then repl ++ pyReplaceGo p ps repl (rest.drop ps.length)
    else c :: pyReplaceGo p ps repl rest
termination_by l => l.length
decreasing_by
  · simp [List.length_drop]
    omega
  · simp

/-- Python `s.replace(pat, repl)` (for the empty pattern, unused by the
scripts, the string is returned unchanged). -/
def pyReplace (s pat repl : String) : String :=
  match pat.data with
  | [] => s
  | p :: ps => ⟨pyReplaceGo p ps repl.data s.data⟩

/-- OpenSearch Serverless collection record (id and name, the two fields the
script reads). -/
structure Collection where
  id : String
  name : String
deriving DecidableEq, Repr

/-- OpenSearch Serverless security policy: name, type (encryption or
network), and the collection resource patterns it covers. -/
structure SecPolicy where
  name : String
  ptype : String
  resources : List String
deriving DecidableEq, Repr

/-- OpenSearch Serverless data access policy. -/
structure AccessPolicy where
  name : String
  ptype : String
  resources : List String
deriving DecidableEq, Repr

/-- Bedrock knowledge-base data source record. -/
structure DataSource where
  dsId : String
  name : String
  config : String
  vectorConfig : String
  deletionPolicy : String
deriving DecidableEq, Repr

/-- Bedrock knowledge base with its data sources. -/
structure KnowledgeBase where
  kbId : String
  name : String
  dataSources : List DataSource
deriving DecidableEq, Repr

/-- S3 bucket; the contained object keys are stored as the pages the
list-objects paginator returns. -/
structure Bucket where
  name : String
  pages : List (List String)
deriving DecidableEq, Repr

/-- Managed policy attachment on an IAM role. -/
structure AttachedPolicy where
  policyName : String
  policyArn : String
deriving DecidableEq, Repr

/-- IAM role record. -/
structure Role where
  roleName : String
  arn : String
  attached : List AttachedPolicy
  inlinePolicies : List String
  instanceProfiles : List String
deriving DecidableEq, Repr

/-- Version of an IAM managed policy. -/
structure PolicyVersion where
  versionId : String
  isDefault : Bool
deriving DecidableEq, Repr

/-- IAM managed policy record. -/
structure IamPolicy where
  arn : String
  policyName : String
  versions : List PolicyVersion
deriving DecidableEq, Repr

/-- Lambda function configuration descriptor (the shape returned by
create_function and by the Configuration field of get_function). -/
structure LambdaFunction where
  functionName : String
  role : String
deriving DecidableEq, Repr

/-- The modelled cloud state: one list per resource kind the scripts touch,
plus the ambient account id. -/
structure AwsWorld where
  collections : List Collection
  secPolicies : List SecPolicy
  accessPolicies : List AccessPolicy
  guardrails : List String
  knowledgeBases : List KnowledgeBase
  buckets : List Bucket
  functions : List LambdaFunction
  roles : List Role
  policies : List IamPolicy
  tables : List String
  agents : List String
  account : String
deriving DecidableEq, Repr

/-- Effectful provider calls recorded in the trace. -/
inductive Event where
  | dispatch (handler : String) (arn : String)
  | deleteSecurityPolicy (name : String) (ptype : String)
  | deleteAccessPolicy (name : String) (ptype : String)
  | deleteCollection (id : String)
  | deleteGuardrail (identifier : String)
  | updateDataSource (kbId : String) (dsId : String) (deletionPolicy : String)
  | deleteDataSource (kbId : String) (dsId : String)
  | deleteKnowledgeBase (kbId : String)
  | deleteObjects (bucket : String) (keys : List String)
  | deleteBucket (bucket : String)
  | detachRolePolicy (roleName : String) (policyArn : String)
  | deleteRolePolicy (roleName : String) (policyName : String)
  | removeRoleFromInstanceProfile (profileName : String) (roleName : String)
  | deleteRole (roleName : String)
  | deletePolicyVersion (policyArn : String) (versionId : String)
  | deletePolicy (policyArn : String)
  | deleteFunction (functionName : String)
  | deleteTable (tableName : String)
  | deleteAgent (agentId : String)
  | createFunction (functionName : String)
  | createRole (roleName : String)
  | createPolicy (policyName : String)
  | attachRolePolicy (roleName : String) (policyArn : String)
deriving DecidableEq, Repr

/-- Faults a modelled call can raise: the provider error taxonomy plus the
Python IndexError raised by malformed identifier parsing. -/
inductive AwsError where
  | notFound (what : String)
  | conflict (what : String)
  | bucketNotEmpty (name : String)
  | indexError
deriving DecidableEq, Repr

/-- Outcome of running a modelled computation: value, world and trace on
normal return, or the propagating fault with the world and trace at the
point the fault was raised. -/
inductive Res (α : Type) where
  | ok (a : α) (w : AwsWorld) (tr : List Event)
  | err (e : AwsError) (w : AwsWorld) (tr : List Event)
deriving Repr, DecidableEq

/-- Trace of a result. -/
def Res.trace : Res α → List Event
  | .ok _ _ tr => tr
  | .err _ _ tr => tr

/-- World of a result. -/
def Res.world : Res α → AwsWorld
  | .ok _ w _ => w
  | .err _ w _ => w

/-- Whether a result is a normal return. -/
def Res.isOk : Res α → Bool
  | .ok _ _ _ => true
  | .err _ _ _ => false

/-- A modelled computation: sequential, synchronous, faulting. -/
def M (α : Type) : Type := AwsWorld → Res α

instance : Monad M where
  pure a := fun w => .ok a w []
  bind m k := fun w =>
    match m w with
    | .ok a w' tr =>
      match k a w' with
      | .ok b w'' tr' => .ok b w'' (tr ++ tr')
      | .err e w'' tr' => .err e w'' (tr ++ tr')
    | .err e w' tr => .err e w' tr

/-- Raise a fault, modelling an uncaught Python exception. -/
def raiseErr (e : AwsError) : M α := fun w => .err e w []

/-- Record an effectful provider call. -/
def emit (e : Event) : M Unit := fun w => .ok () w [e]

/-- Python try/except around EntityAlreadyExists or ResourceConflict: run
the handler when the guarded computation raises a conflict fault. -/
def isConflict : AwsError → Bool
  | .conflict _ => true
  | _ => false

/-- Generic try/except: faults of the caught kind transfer control to the
handler, every other outcome passes through. -/
def catchWhen (p : AwsError → Bool) (m : M α) (handler : M α) : M α := fun w =>
  match m w with
  | .ok a w' tr => .ok a w' tr
  | .err e w' tr =>
    if p e then
      match handler w' with
      | .ok a w'' tr' => .ok a w'' (tr ++ tr')
      | .err e' w'' tr' => .err e' w'' (tr ++ tr')
    else .err e w' tr

/-- Python `try: ... except ClientError: pass`: provider faults inside the
block are swallowed (an IndexError is not a ClientError and still
propagates, though the guarded blocks only make provider calls). -/
def tryClientError (m : M Unit) : M Unit := fun w =>
  match m w with
  | .ok _ w' tr => .ok () w' tr
  | .err AwsError.indexError w' tr => .err AwsError.indexError w' tr
  | .err _ w' tr => .ok () w' tr

instance {ε α : Type} [DecidableEq ε] [DecidableEq α] : DecidableEq (Except ε α) := fun x y =>
  match x, y with
  | .ok a, .ok b => if h : a = b then isTrue (by rw [h]) else isFalse (by simp [h])
  | .error a, .error b => if h : a = b then isTrue (by rw [h]) else isFalse (by simp [h])
  | .ok _, .error _ => isFalse (by simp)
  | .error _, .ok _ => isFalse (by simp)

/-- Translation of `parse_arn`: split on colons, read segment 2 (Python list
indexing raises IndexError when the list is too short), join everything from
segment 5 on. -/
def parse_arn (arn : String) : Except AwsError (String × String) :=
  let parts := pySplit arn
  match parts.get? 2 with
  | none => .error .indexError
  | some service => .ok (service, pyJoinColon (parts.drop 5))

/-- aoss batch_get_collection: returns the collection details matching the
requested id (no fault for an unknown id, the detail list is just empty). -/
def aossBatchGetCollection (cid : String) : M (List Collection) := fun w =>
  .ok (w.collections.filter (fun c => c.id == cid)) w []

/-- aoss list_security_policies filtered by type and covered resource. -/
def aossListSecurityPolicies (ptype resName : String) : M (List SecPolicy) := fun w =>
  .ok (w.secPolicies.filter (fun p => p.ptype == ptype && p.resources.contains resName)) w []

/-- aoss delete_security_policy. -/
def aossDeleteSecurityPolicy (name ptype : String) : M Unit := fun w =>
  match w.secPolicies.find? (fun p => p.name == name && p.ptype == ptype) with
  | some _ =>
    .ok () { w with secPolicies := w.secPolicies.filter (fun p => !(p.name == name && p.ptype == ptype)) }
      [.deleteSecurityPolicy name ptype]
  | none => .err (.notFound name) w []

/-- aoss list_access_policies filtered by type and covered resource. -/
def aossListAccessPolicies (ptype resName : String) : M (List AccessPolicy) := fun w =>
  .ok (w.accessPolicies.filter (fun p => p.ptype == ptype && p.resources.contains resName)) w []

/-- aoss delete_access_policy. -/
def aossDeleteAccessPolicy (name ptype : String) : M Unit := fun w =>
  match w.accessPolicies.find? (fun p => p.name == name && p.ptype == ptype) with
  | some _ =>
    .ok () { w with accessPolicies := w.accessPolicies.filter (fun p => !(p.name == name && p.ptype == ptype)) }
      [.deleteAccessPolicy name ptype]
  | none => .err (.notFound name) w []

/-- aoss delete_collection. -/
def aossDeleteCollection (cid : String) : M Unit := fun w =>
  match w.collections.find? (fun c => c.id == cid) with
  | some _ =>
    .ok () { w with collections := w.collections.filter (fun c => !(c.id == cid)) } [.deleteCollection cid]
  | none => .err (.notFound cid) w []

/-- bedrock delete_guardrail (the script passes the full ARN as the
identifier). -/
def bedrockDeleteGuardrail (identifier : String) : M Unit := fun w =>
  if w.guardrails.contains identifier then
    .ok () { w with guardrails := w.guardrails.filter (fun g => !(g == identifier)) } [.deleteGuardrail identifier]
  else .err (.notFound identifier) w []

/-- bedrock-agent get_knowledge_base. -/
def agentGetKnowledgeBase (kbId : String) : M KnowledgeBase := fun w =>
  match w.knowledgeBases.find? (fun kb => kb.kbId == kbId) with
  | some kb => .ok kb w []
  | none => .err (.notFound kbId) w []

/-- bedrock-agent list_data_sources. -/
def agentListDataSources (kbId : String) : M (List DataSource) := fun w =>
  match w.knowledgeBases.find? (fun kb => kb.kbId == kbId) with
  | some kb => .ok kb.dataSources w []
  | none => .err (.notFound kbId) w []

/-- bedrock-agent get_data_source. -/
def agentGetDataSource (kbId dsId : String) : M DataSource := fun w =>
  match w.knowledgeBases.find? (fun kb => kb.kbId == kbId) with
  | some kb =>
    match kb.dataSources.find? (fun d => d.dsId == dsId) with
    | some d => .ok d w []
    | none => .err (.notFound dsId) w []
  | none => .err (.notFound kbId) w []

/-- bedrock-agent update_data_source. -/
def agentUpdateDataSource (kbId dsId name config vectorConfig deletionPolicy : String) : M Unit := fun w =>
  match w.knowledgeBases.find? (fun kb => kb.kbId == kbId) with
  | some kb =>
    match kb.dataSources.find? (fun d => d.dsId == dsId) with
    | some _ =>
      .ok ()
        { w with
          knowledgeBases := w.knowledgeBases.map (fun kb' =>
            if kb'.kbId == kbId then
              { kb' with
                dataSources := kb'.dataSources.map (fun d =>
                  if d.dsId == dsId then
                    { d with name := name, config := config, vectorConfig := vectorConfig,
                             deletionPolicy := deletionPolicy }
                  else d) }
            else kb') }
        [.updateDataSource kbId dsId deletionPolicy]
    | none => .err (.notFound dsId) w []
  | none => .err (.notFound kbId) w []

/-- bedrock-agent delete_data_source. -/
def agentDeleteDataSource (kbId dsId : String) : M Unit := fun w =>
  match w.knowledgeBases.find? (fun kb => kb.kbId == kbId) with
  | some kb =>
    match kb.dataSources.find? (fun d => d.dsId == dsId) with
    | some _ =>
      .ok ()
        { w with
          knowledgeBases := w.knowledgeBases.map (fun kb' =>
            if kb'.kbId == kbId then
              { kb' with dataSources := kb'.dataSources.filter (fun d => !(d.dsId == dsId)) }
            else kb') }
        [.deleteDataSource kbId dsId]
    | none => .err (.notFound dsId) w []
  | none => .err (.notFound kbId) w []

/-- bedrock-agent delete_knowledge_base. -/
def agentDeleteKnowledgeBase (kbId : String) : M Unit := fun w =>
  match w.knowledgeBases.find? (fun kb => kb.kbId == kbId) with
  | some _ =>
    .ok () { w with knowledgeBases := w.knowledgeBases.filter (fun kb => !(kb.kbId == kbId)) }
      [.deleteKnowledgeBase kbId]
  | none => .err (.notFound kbId) w []

/-- s3 list_objects_v2 paginator: the pages of the named bucket (the first
page request raises not-found for an unknown bucket). -/
def s3ListObjectPages (bucket : String) : M (List (List String)) := fun w =>
  match w.buckets.find? (fun b => b.name == bucket) with
  | some b => .ok b.pages w []
  | none => .err (.notFound bucket) w []

/-- s3 delete_objects: batch-remove the given keys. -/
def s3DeleteObjects (bucket : String) (keys : List String) : M Unit := fun w =>
  match w.buckets.find? (fun b => b.name == bucket) with
  | some _ =>
    .ok ()
      { w with
        buckets := w.buckets.map (fun b =>
          if b.name == bucket then
            { b with pages := b.pages.map (fun pg => pg.filter (fun k => !(keys.contains k))) }
          else b) }
      [.deleteObjects bucket keys]
  | none => .err (.notFound bucket) w []

/-- s3 delete_bucket: refuses a non-empty bucket. -/
def s3DeleteBucket (bucket : String) : M Unit := fun w =>
  match w.buckets.find? (fun b => b.name == bucket) with
  | some b =>
    if b.pages.all (fun pg => pg.isEmpty) then
      .ok () { w with buckets := w.buckets.filter (fun b' => !(b'.name == bucket)) } [.deleteBucket bucket]
    else .err (.bucketNotEmpty bucket) w []
  | none => .err (.notFound bucket) w []

/-- iam list_attached_role_policies. -/
def iamListAttachedRolePolicies (roleName : String) : M (List AttachedPolicy) := fun w =>
  match w.roles.find? (fun r => r.roleName == roleName) with
  | some r => .ok r.attached w []
  | none => .err (.notFound roleName) w []

/-- iam detach_role_policy. -/
def iamDetachRolePolicy (roleName policyArn : String) : M Unit := fun w =>
  match w.roles.find? (fun r => r.roleName == roleName) with
  | some r =>
    if r.attached.any (fun p => p.policyArn == policyArn) then
      .ok ()
        { w with
          roles := w.roles.map (fun r' =>
            if r'.roleName == roleName then
              { r' with attached := r'.attached.filter (fun p => !(p.policyArn == policyArn)) }
            else r') }
        [.detachRolePolicy roleName policyArn]
    else .err (.notFound policyArn) w []
  | none => .err (.notFound roleName) w []

/-- iam list_role_policies. -/
def iamListRolePolicies (roleName : String) : M (List String) := fun w =>
  match w.roles.find? (fun r => r.roleName == roleName) with
  | some r => .ok r.inlinePolicies w []
  | none => .err (.notFound roleName) w []

/-- iam delete_role_policy. -/
def iamDeleteRolePolicy (roleName policyName : String) : M Unit := fun w =>
  match w.roles.find? (fun r => r.roleName == roleName) with
  | some r =>
    if r.inlinePolicies.contains policyName then
      .ok ()
        { w with
          roles := w.roles.map (fun r' =>
            if r'.roleName == roleName then
              { r' with inlinePolicies := r'.inlinePolicies.filter (fun n => !(n == policyName)) }
            else r') }
        [.deleteRolePolicy roleName policyName]
    else .err (.notFound policyName) w []
  | none => .err (.notFound roleName) w []

/-- iam list_instance_profiles_for_role. -/
def iamListInstanceProfilesForRole (roleName : String) : M (List String) := fun w =>
  match w.roles.find? (fun r => r.roleName == roleName) with
  | some r => .ok r.instanceProfiles w []
  | none => .err (.notFound roleName) w []

/-- iam remove_role_from_instance_profile. -/
def iamRemoveRoleFromInstanceProfile (profileName roleName : String) : M Unit := fun w =>
  match w.roles.find? (fun r => r.roleName == roleName) with
  | some r =>
    if r.instanceProfiles.contains profileName then
      .ok ()
        { w with
          roles := w.roles.map (fun r' =>
            if r'.roleName == roleName then
              { r' with instanceProfiles := r'.instanceProfiles.filter (fun n => !(n == profileName)) }
            else r') }
        [.removeRoleFromInstanceProfile profileName roleName]
    else .err (.notFound profileName) w []
  | none => .err (.notFound roleName) w []

/-- iam delete_role. -/
def iamDeleteRole (roleName : String) : M Unit := fun w =>
  match w.roles.find? (fun r => r.roleName == roleName) with
  | some _ =>
    .ok () { w with roles := w.roles.filter (fun r => !(r.roleName == roleName)) } [.deleteRole roleName]
  | none => .err (.notFound roleName) w []

/-- iam list_policy_versions. -/
def iamListPolicyVersions (policyArn : String) : M (List PolicyVersion) := fun w =>
  match w.policies.find? (fun p => p.arn == policyArn) with
  | some p => .ok p.versions w []
  | none => .err (.notFound policyArn) w []

/-- iam delete_policy_version. -/
def iamDeletePolicyVersion (policyArn versionId : String) : M Unit := fun w =>
  match w.policies.find? (fun p => p.arn == policyArn) with
  | some _ =>
    .ok ()
      { w with
        policies := w.policies.map (fun p =>
          if p.arn == policyArn then
            { p with versions := p.versions.filter (fun v => !(v.versionId == versionId)) }
          else p) }
      [.deletePolicyVersion policyArn versionId]
  | none => .err (.notFound policyArn) w []

/-- iam delete_policy. -/
def iamDeletePolicy (policyArn : String) : M Unit := fun w =>
  match w.policies.find? (fun p => p.arn == policyArn) with
  | some _ =>
    .ok () { w with policies := w.policies.filter (fun p => !(p.arn == policyArn)) } [.deletePolicy policyArn]
  | none => .err (.notFound policyArn) w []

/-- lambda delete_function. -/
def lambdaDeleteFunction (functionName : String) : M Unit := fun w =>
  match w.functions.find? (fun f => f.functionName == functionName) with
  | some _ =>
    .ok () { w with functions := w.functions.filter (fun f => !(f.functionName == functionName)) }
      [.deleteFunction functionName]
  | none => .err (.notFound functionName) w []

/-- dynamodb delete_table. -/
def dynamodbDeleteTable (tableName : String) : M Unit := fun w =>
  if w.tables.contains tableName then
    .ok () { w with tables := w.tables.filter (fun t => !(t == tableName)) } [.deleteTable tableName]
  else .err (.notFound tableName) w []

/-- bedrock-agent delete_agent. -/
def agentDeleteAgent (agentId : String) : M Unit := fun w =>
  if w.agents.contains agentId then
    .ok () { w with agents := w.agents.filter (fun a => !(a == agentId)) } [.deleteAgent agentId]
  else .err (.notFound agentId) w []

/-- Inner loop of `delete_collection` deleting the listed security policies
of one type. -/
def deleteSecurityPolicyList (ptype : String) : List SecPolicy → M Unit
  | [] => pure ()
  | p :: rest => do
    aossDeleteSecurityPolicy p.name ptype
    deleteSecurityPolicyList ptype rest

/-- Outer loop of `delete_collection` over the policy types
`["encryption", "network"]`: list then delete the security policies of each
type covering the collection. -/
def deleteSecurityPolicyTypes (resName : String) : List String → M Unit
  | [] => pure ()
  | ptype :: rest => do
    let ps ← aossListSecurityPolicies ptype resName
    deleteSecurityPolicyList ptype ps
    deleteSecurityPolicyTypes resName rest

/-- Loop of `delete_collection` deleting the listed data access policies. -/
def deleteAccessPolicyList : List AccessPolicy → M Unit
  | [] => pure ()
  | p :: rest => do
    aossDeleteAccessPolicy p.name "data"
    deleteAccessPolicyList rest

/-- Translation of `delete_collection`: on an aoss `collection/<id>` match,
look the collection up, and when exactly one detail comes back delete its
encryption and network security policies, then its data access policies,
then the collection itself. -/
def delete_collection (arn service resource : String) : M Unit :=
  match reMatch1 "collection/" resource with
  | none => pure ()
  | some collection_id =>
    if service == "aoss" then do
      let collections ← aossBatchGetCollection collection_id
      if collections.length == 1 then
        match collections with
        | [] => pure ()
        | collection :: _ => do
          let resource_name := "collection/" ++ collection.name
          deleteSecurityPolicyTypes resource_name ["encryption", "network"]
          let aps ← aossListAccessPolicies "data" resource_name
          deleteAccessPolicyList aps
          aossDeleteCollection collection_id
      else pure ()
    else pure ()

/-- Translation of `delete_guardrail`: on a bedrock `guardrail/<id>` match,
delete the guardrail, passing the full ARN as the identifier exactly as the
script does. -/
def delete_guardrail (arn service resource : String) : M Unit :=
  match reMatch1 "guardrail/" resource with
  | none => pure ()
  | some _guardrail_id =>
    if service == "bedrock" then bedrockDeleteGuardrail arn
    else pure ()

/-- Loop of `delete_knowledgebase` over the listed data sources: fetch the
data source details, update its deletion policy to RETAIN, then delete it. -/
def deleteDataSourceList (kb_id : String) : List DataSource → M Unit
  | [] => pure ()
  | ds :: rest => do
    let ds_details ← agentGetDataSource kb_id ds.dsId
    agentUpdateDataSource kb_id ds.dsId ds_details.name ds_details.config ds_details.vectorConfig "RETAIN"
    agentDeleteDataSource kb_id ds.dsId
    deleteDataSourceList kb_id rest

/-- Translation of `delete_knowledgebase`: on a bedrock
`knowledge-base/<id>` match, fetch the knowledge base, clear every data
source (RETAIN then delete), then delete the knowledge base. -/
def delete_knowledgebase (arn service resource : String) : M Unit :=
  match reMatch1 "knowledge-base/" resource with
  | none => pure ()
  | some kb_id =>
    if service == "bedrock" then do
      let _kb ← agentGetKnowledgeBase kb_id
      let data_sources ← agentListDataSources kb_id
      deleteDataSourceList kb_id data_sources
      agentDeleteKnowledgeBase kb_id
    else pure ()

/-- Loop of `delete_bucket` over the paginator pages: pages with contents
are batch-deleted, pages without the Contents key are skipped. -/
def deleteObjectPages (bucket_name : String) : List (List String) → M Unit
  | [] => pure ()
  | page :: rest =>
    (if page.isEmpty then pure () else s3DeleteObjects bucket_name page) >>= fun _ =>
      deleteObjectPages bucket_name rest

/-- Translation of `delete_bucket`: for the s3 service (the resource is the
bucket name), empty every page of objects, then delete the bucket. -/
def delete_bucket (arn service resource : String) : M Unit :=
  if service == "s3" then do
    let bucket_name := resource
    let pages ← s3ListObjectPages bucket_name
    deleteObjectPages bucket_name pages
    s3DeleteBucket bucket_name
  else pure ()

/-- Loop of `delete_roles` detaching the listed managed policies. -/
def detachAttachedList (role_name : String) : List AttachedPolicy → M Unit
  | [] => pure ()
  | p :: rest => do
    iamDetachRolePolicy role_name p.policyArn
    detachAttachedList role_name rest

/-- Loop of `delete_roles` deleting the listed inline policies. -/
def deleteInlineList (role_name : String) : List String → M Unit
  | [] => pure ()
  | n :: rest => do
    iamDeleteRolePolicy role_name n
    deleteInlineList role_name rest

/-- Loop of `delete_roles` removing the role from the listed instance
profiles. -/
def removeProfileList (role_name : String) : List String → M Unit
  | [] => pure ()
  | prof :: rest => do
    iamRemoveRoleFromInstanceProfile prof role_name
    removeProfileList role_name rest

/-- Translation of `delete_roles`: on an iam `role/<name>` match (stripping
a leading service-role/ path), detach managed policies, delete inline
policies, remove the role from instance profiles inside a swallowing
try/except, then delete the role. -/
def delete_roles (arn service resource : String) : M Unit :=
  match reMatch1 "role/" resource with
  | none => pure ()
  | some role_name0 =>
    if service == "iam" then
      let role_name :=
        if "service-role/".data.isPrefixOf role_name0.data then pyReplace role_name0 "service-role/" ""
        else role_name0
      do
        let attached ← iamListAttachedRolePolicies role_name
        detachAttachedList role_name attached
        let inlineNames ← iamListRolePolicies role_name
        deleteInlineList role_name inlineNames
        tryClientError (do
          let profiles ← iamListInstanceProfilesForRole role_name
          removeProfileList role_name profiles)
        iamDeleteRole role_name
    else pure ()

/-- Loop of `delete_policy` deleting the listed non-default policy
versions. -/
def deleteVersionList (policyArn : String) : List PolicyVersion → M Unit
  | [] => pure ()
  | v :: rest =>
    (if v.isDefault then pure () else iamDeletePolicyVersion policyArn v.versionId) >>= fun _ =>
      deleteVersionList policyArn rest

/-- Translation of `delete_policy`: on an iam `policy/<name>` match, delete
every non-default version, then the policy itself, both addressed by the
full ARN exactly as the script does. -/
def delete_policy (arn service resource : String) : M Unit :=
  match reMatch1 "policy/" resource with
  | none => pure ()
  | some _policy_name =>
    if service == "iam" then do
      let versions ← iamListPolicyVersions arn
      deleteVersionList arn versions
      iamDeletePolicy arn
    else pure ()

/-- Translation of `delete_function`: on a lambda `function:<name>` match,
delete the Lambda function. -/
def delete_function (arn service resource : String) : M Unit :=
  match reMatch1 "function:" resource with
  | none => pure ()
  | some function_name =>
    if service == "lambda" then lambdaDeleteFunction function_name
    else pure ()

/-- Translation of `delete_table`: on a dynamodb `table/<name>` match,
delete the DynamoDB table. -/
def delete_table (arn service resource : String) : M Unit :=
  match reMatch1 "table/" resource with
  | none => pure ()
  | some table_name =>
    if service == "dynamodb" then dynamodbDeleteTable table_name
    else pure ()

/-- Translation of `delete_agent`: on a bedrock `agent/<id>` match, delete
the Bedrock agent. -/
def delete_agent (arn service resource : String) : M Unit :=
  match reMatch1 "agent/" resource with
  | none => pure ()
  | some agent_id =>
    if service == "bedrock" then agentDeleteAgent agent_id
    else pure ()

/-- One named deletion handler of the sweep. -/
abbrev HandlerEntry : Type := String × (String → String → String → M Unit)

/-- The ordered handler list of `delete_resources`, in the exact order of
the source. -/
def delete_actions : List HandlerEntry :=
  [("delete_guardrail", delete_guardrail),
   ("delete_collection", delete_collection),
   ("delete_knowledgebase", delete_knowledgebase),
   ("delete_bucket", delete_bucket),
   ("delete_function", delete_function),
   ("delete_roles", delete_roles),
   ("delete_policy", delete_policy),
   ("delete_table", delete_table),
   ("delete_agent", delete_agent)]

/-- Inner loop of `delete_resources`: for one handler, parse each ARN and
invoke the handler on it; a `dispatch` trace entry records each handler
invocation. -/
def sweepOne (name : String) (action : String → String → String → M Unit) : List String → M Unit
  | [] => pure ()
  | arn :: rest =>
    match parse_arn arn with
    | .error e => raiseErr e
    | .ok (service, resource) => do
      emit (.dispatch name arn)
      action arn service resource
      sweepOne name action rest

/-- Outer loop of `delete_resources` over the handler list. -/
def runActions : List HandlerEntry → List String → M Unit
  | [], _ => pure ()
  | p :: rest, arns => do
    sweepOne p.1 p.2 arns
    runActions rest arns

/-- Translation of `delete_resources`: handler outer, identifier inner, in
the fixed handler order. -/
def delete_resources (arns : List String) : M Unit :=
  runActions delete_actions arns

/-- Response shape of iam create_role and get_role: a record holding the
Role field. -/
structure RoleResponse where
  role : Role
deriving DecidableEq, Repr

/-- Response shape of iam create_policy and get_policy: a record holding the
Policy field. -/
structure PolicyResponse where
  policy : IamPolicy
deriving DecidableEq, Repr

/-- Response shape of lambda get_function: a record holding the
Configuration field (the same descriptor shape create_function returns
directly). -/
structure GetFunctionResponse where
  configuration : LambdaFunction
deriving DecidableEq, Repr

/-- lambda create_function: conflict when a function of that name already
exists, otherwise create it and return its configuration descriptor. -/
def lambdaCreateFunction (functionName roleArn : String) : M LambdaFunction := fun w =>
  match w.functions.find? (fun f => f.functionName == functionName) with
  | some _ => .err (.conflict functionName) w []
  | none =>
    let f : LambdaFunction := ⟨functionName, roleArn⟩
    .ok f { w with functions := w.functions ++ [f] } [.createFunction functionName]

/-- lambda get_function. -/
def lambdaGetFunction (functionName : String) : M GetFunctionResponse := fun w =>
  match w.functions.find? (fun f => f.functionName == functionName) with
  | some f => .ok ⟨f⟩ w []
  | none => .err (.notFound functionName) w []

/-- iam create_role: conflict when the role already exists, otherwise create
a fresh role and return it in the create_role response shape. -/
def iamCreateRole (roleName : String) : M RoleResponse := fun w =>
  match w.roles.find? (fun r => r.roleName == roleName) with
  | some _ => .err (.conflict roleName) w []
  | none =>
    let r : Role := ⟨roleName, "arn:aws:iam::" ++ w.account ++ ":role/" ++ roleName, [], [], []⟩
    .ok ⟨r⟩ { w with roles := w.roles ++ [r] } [.createRole roleName]

/-- iam get_role. -/
def iamGetRole (roleName : String) : M RoleResponse := fun w =>
  match w.roles.find? (fun r => r.roleName == roleName) with
  | some r => .ok ⟨r⟩ w []
  | none => .err (.notFound roleName) w []

/-- iam attach_role_policy. -/
def iamAttachRolePolicy (roleName policyArn : String) : M Unit := fun w =>
  match w.roles.find? (fun r => r.roleName == roleName) with
  | some _ =>
    .ok ()
      { w with
        roles := w.roles.map (fun r =>
          if r.roleName == roleName then { r with attached := r.attached ++ [⟨policyArn, policyArn⟩] }
          else r) }
      [.attachRolePolicy roleName policyArn]
  | none => .err (.notFound roleName) w []

/-- iam create_policy: conflict when a policy of that name already exists,
otherwise create it with the account-derived ARN and a single default
version. -/
def iamCreatePolicy (policyName : String) : M PolicyResponse := fun w =>
  match w.policies.find? (fun p => p.policyName == policyName) with
  | some _ => .err (.conflict policyName) w []
  | none =>
    let p : IamPolicy := ⟨"arn:aws:iam::" ++ w.account ++ ":policy/" ++ policyName, policyName, [⟨"v1", true⟩]⟩
    .ok ⟨p⟩ { w with policies := w.policies ++ [p] } [.createPolicy policyName]

/-- iam get_policy, addressed by ARN. -/
def iamGetPolicy (policyArn : String) : M PolicyResponse := fun w =>
  match w.policies.find? (fun p => p.arn == policyArn) with
  | some p => .ok ⟨p⟩ w []
  | none => .err (.notFound policyArn) w []

/-- Ambient account id (module-level `sts_client.get_caller_identity`). -/
def stsAccount : M String := fun w => .ok w.account w []

/-- Translation of `create_lambda` from `agent.py`: create the function; on
a ResourceConflict fetch the existing one and unwrap its Configuration
field, so both paths return the same descriptor shape. -/
def create_lambda (lambda_function_name : String) (lambda_iam_role : RoleResponse) : M LambdaFunction :=
  catchWhen isConflict
    (lambdaCreateFunction lambda_function_name lambda_iam_role.role.arn)
    (do
      let gf ← lambdaGetFunction lambda_function_name
      pure gf.configuration)

/-- The create-role try/except of `create_lambda_role`: create the role; on
EntityAlreadyExists fetch the existing role instead. -/
def createOrGetRole (role_name : String) : M RoleResponse :=
  catchWhen isConflict (iamCreateRole role_name) (iamGetRole role_name)

/-- The create-policy try/except of `create_lambda_role`: create the policy;
on EntityAlreadyExists fetch the existing policy by its account-derived
ARN. -/
def createOrGetPolicy (policy_name : String) : M PolicyResponse := do
  let account_id ← stsAccount
  catchWhen isConflict (iamCreatePolicy policy_name)
    (iamGetPolicy ("arn:aws:iam::" ++ account_id ++ ":policy/" ++ policy_name))

/-- Translation of `create_lambda_role`: create-or-get the lambda role,
attach the basic execution policy, create-or-get the DynamoDB access
policy, attach it, and return the role response obtained up front. -/
def create_lambda_role (agent_name _dynamodb_table_name : String) : M RoleResponse := do
  let lambda_function_role := agent_name ++ "-lambda-role"
  let dynamodb_access_policy_name := agent_name ++ "-dynamodb-policy"
  let lambda_iam_role ← createOrGetRole lambda_function_role
  iamAttachRolePolicy lambda_function_role "arn:aws:iam::aws:policy/service-role/AWSLambdaBasicExecutionRole"
  let dynamodb_access_policy ← createOrGetPolicy dynamodb_access_policy_name
  iamAttachRolePolicy lambda_function_role dynamodb_access_policy.policy.arn
  pure lambda_iam_role

/-- Match condition of the guardrail handler. -/
def matches_guardrail (service resource : String) : Bool :=
  service == "bedrock" && (reMatch1 "guardrail/" resource).isSome

/-- Match condition of the collection handler. -/
def matches_collection (service resource : String) : Bool :=
  service == "aoss" && (reMatch1 "collection/" resource).isSome

/-- Match condition of the knowledge-base handler. -/
def matches_knowledgebase (service resource : String) : Bool :=
  service == "bedrock" && (reMatch1 "knowledge-base/" resource).isSome

/-- Match condition of the bucket handler: a bare service check. -/
def matches_bucket (service _resource : String) : Bool :=
  service == "s3"

/-- Match condition of the Lambda function handler. -/
def matches_function (service resource : String) : Bool :=
  service == "lambda" && (reMatch1 "function:" resource).isSome

/-- Match condition of the role handler. -/
def matches_roles (service resource : String) : Bool :=
  service == "iam" && (reMatch1 "role/" resource).isSome

/-- Match condition of the policy handler. -/
def matches_policy (service resource : String) : Bool :=
  service == "iam" && (reMatch1 "policy/" resource).isSome

/-- Match condition of the table handler. -/
def matches_table (service resource : String) : Bool :=
  service == "dynamodb" && (reMatch1 "table/" resource).isSome

/-- Match condition of the agent handler. -/
def matches_agent (service resource : String) : Bool :=
  service == "bedrock" && (reMatch1 "agent/" resource).isSome

/-- The nine handler match conditions, in handler order. -/
def matchConds (service resource : String) : List Bool :=
  [matches_guardrail service resource,
   matches_collection service resource,
   matches_knowledgebase service resource,
   matches_bucket service resource,
   matches_function service resource,
   matches_roles service resource,
   matches_policy service resource,
   matches_table service resource,
   matches_agent service resource]

/-- Unfolding of monadic sequencing on the modelled computations. -/
theorem bind_apply (m : M α) (k : α → M β) (w : AwsWorld) :
    (m >>= k) w =
      match m w with
      | .ok a w' tr =>
        match k a w' with
        | .ok b w'' tr' => .ok b w'' (tr ++ tr')
        | .err e w'' tr' => .err e w'' (tr ++ tr')
      | .err e w' tr => .err e w' tr := rfl

/-- Unfolding of pure returns. -/
theorem pure_apply (a : α) (w : AwsWorld) : (pure a : M α) w = .ok a w [] := rfl

/-- Sequencing two normal returns. -/
theorem bind_ok_ok {m : M α} {k : α → M β} {w w₁ w₂ : AwsWorld} {a : α} {b : β}
    {tr₁ tr₂ : List Event} (h₁ : m w = .ok a w₁ tr₁) (h₂ : k a w₁ = .ok b w₂ tr₂) :
    (m >>= k) w = .ok b w₂ (tr₁ ++ tr₂) := by
  simp only [bind_apply, h₁, h₂]

/-- Sequencing a normal return with a faulting continuation. -/
theorem bind_ok_err {m : M α} {k : α → M β} {w w₁ w₂ : AwsWorld} {a : α} {e : AwsError}
    {tr₁ tr₂ : List Event} (h₁ : m w = .ok a w₁ tr₁) (h₂ : k a w₁ = .err e w₂ tr₂) :
    (m >>= k) w = .err e w₂ (tr₁ ++ tr₂) := by
  simp only [bind_apply, h₁, h₂]

/-- A fault in the first computation short-circuits the sequence. -/
theorem bind_err {m : M α} {k : α → M β} {w w₁ : AwsWorld} {e : AwsError}
    {tr₁ : List Event} (h₁ : m w = .err e w₁ tr₁) :
    (m >>= k) w = .err e w₁ tr₁ := by
  simp only [bind_apply, h₁]

/-- The handler/identifier pair of a dispatch event. -/
def dispatchOf : Event → Option (String × String)
  | .dispatch n a => some (n, a)
  | _ => none

/-- The dispatch entries of a trace: which handler was invoked on which
identifier, in order. -/
def dispatches (tr : List Event) : List (String × String) :=
  tr.filterMap dispatchOf

/-- Dispatch entries split over concatenation. -/
theorem dispatches_append (a b : List Event) :
    dispatches (a ++ b) = dispatches a ++ dispatches b :=
  List.filterMap_append a b _

/-- Claim statement helper: the strings of a trace event that is not a
`dispatch` contribute no dispatch entry. -/
def isDispatch : Event → Bool
  | .dispatch _ _ => true
  | _ => false

/-- Events that delete an OpenSearch Serverless security or access
policy. -/
def isPolicyDeleteEvent : Event → Bool
  | .deleteSecurityPolicy _ _ => true
  | .deleteAccessPolicy _ _ => true
  | _ => false

/-- Events that delete an OpenSearch Serverless collection. -/
def isCollectionDeleteEvent : Event → Bool
  | .deleteCollection _ => true
  | _ => false

/-- Checker for claim C6: after any delete-collection call no further
security or access policy deletion occurs. -/
def noPolicyDeleteAfterCollection : List Event → Bool
  | [] => true
  | e :: rest =>
    (if isCollectionDeleteEvent e then rest.all (fun x => !isPolicyDeleteEvent x) else true) &&
      noPolicyDeleteAfterCollection rest

/-- Events that delete a knowledge-base data source. -/
def isDsDeleteEvent : Event → Bool
  | .deleteDataSource _ _ => true
  | _ => false

/-- Events that delete a knowledge base. -/
def isKbDeleteEvent : Event → Bool
  | .deleteKnowledgeBase _ => true
  | _ => false

/-- Checker for claim C7, first half: every data-source deletion is
immediately preceded by the RETAIN update of the same data source. -/
def retainPaired (prev : Option Event) : List Event → Bool
  | [] => true
  | e :: rest =>
    (match e with
     | Event.deleteDataSource kb ds => prev == some (Event.updateDataSource kb ds "RETAIN")
     | _ => true) &&
      retainPaired (some e) rest

/-- Checker for claim C7, second half: after any knowledge-base deletion no
further data-source deletion occurs. -/
def noDsDeleteAfterKb : List Event → Bool
  | [] => true
  | e :: rest =>
    (if isKbDeleteEvent e then rest.all (fun x => !isDsDeleteEvent x) else true) &&
      noDsDeleteAfterKb rest

/-- Events that batch-delete bucket objects. -/
def isObjDeleteEvent : Event → Bool
  | .deleteObjects _ _ => true
  | _ => false

/-- Events that delete a bucket. -/
def isBucketDeleteEvent : Event → Bool
  | .deleteBucket _ => true
  | _ => false

/-- Checker for claim C8: after any bucket deletion no further object
batch-deletion occurs. -/
def noObjDeleteAfterBucket : List Event → Bool
  | [] => true
  | e :: rest =>
    (if isBucketDeleteEvent e then rest.all (fun x => !isObjDeleteEvent x) else true) &&
      noObjDeleteAfterBucket rest

/-- With at most five colon segments the joined remainder from segment 5 on
is empty. -/
theorem pyJoinColon_drop_five {parts : List String} (h : parts.length ≤ 5) :
    pyJoinColon (parts.drop 5) = "" := by
  have hd : parts.drop 5 = [] := List.drop_eq_nil_of_le h
  rw [hd]
  rfl

/-- Claim C4, counterexample: `parse_arn` does not reject or flag malformed
identifiers: on a one-segment input it raises an uncaught IndexError, and on
a five-segment input it silently returns an empty resource path. -/
theorem parse_arn_counterexample :
    parse_arn "foo" = Except.error AwsError.indexError ∧
    parse_arn "a:b:c:d:e" = Except.ok ("c", "") := by
  constructor <;> decide

/-- Claim C4, amended: for every identifier with fewer than 6 colon
segments, `parse_arn` either raises an uncaught IndexError (exactly when
there are fewer than 3 segments) or silently returns the third segment with
an empty resource path; it never rejects or flags the input. -/
theorem parse_arn_short_input (arn : String) (h : (pySplit arn).length < 6) :
    (parse_arn arn = Except.error AwsError.indexError ∧ (pySplit arn).length < 3) ∨
      (∃ s, parse_arn arn = Except.ok (s, "") ∧ 3 ≤ (pySplit arn).length) := by
  cases hg : (pySplit arn).get? 2 with
  | none =>
    left
    refine ⟨?_, ?_⟩
    · unfold parse_arn
      simp only [hg]
    · have := List.get?_eq_none.mp hg
      omega
  | some s =>
    right
    have hle : (pySplit arn).length ≤ 5 := by omega
    refine ⟨s, ?_, ?_⟩
    · unfold parse_arn
      simp only [hg, pyJoinColon_drop_five hle]
    · by_contra hlt
      have h3 : (pySplit arn).get? 2 = none := List.get?_eq_none.mpr (by omega)
      rw [h3] at hg
      exact Option.noConfusion hg

/-- Witness for the amended claim C4 at the concrete inputs of the
counterexample. -/
theorem parse_arn_short_input_witness :
    ((pySplit "foo").length < 6 ∧
      ((parse_arn "foo" = Except.error AwsError.indexError ∧ (pySplit "foo").length < 3) ∨
        (∃ s, parse_arn "foo" = Except.ok (s, "") ∧ 3 ≤ (pySplit "foo").length))) ∧
    ((pySplit "a:b:c:d:e").length < 6 ∧
      ((parse_arn "a:b:c:d:e" = Except.error AwsError.indexError ∧ (pySplit "a:b:c:d:e").length < 3) ∨
        (∃ s, parse_arn "a:b:c:d:e" = Except.ok (s, "") ∧ 3 ≤ (pySplit "a:b:c:d:e").length))) :=
  ⟨⟨by decide, parse_arn_short_input "foo" (by decide)⟩,
   ⟨by decide, parse_arn_short_input "a:b:c:d:e" (by decide)⟩⟩

/-- Claim C10: when the collection lookup returns anything other than
exactly one detail, `delete_collection` performs no deletion at all and
returns normally with the world unchanged and an empty trace. -/
theorem delete_collection_missing_noop (arn resource : String) (w : AwsWorld) (cid : String)
    (hm : reMatch1 "collection/" resource = some cid)
    (hlen : (w.collections.filter (fun c => c.id == cid)).length ≠ 1) :
    delete_collection arn "aoss" resource w = Res.ok () w [] := by
  unfold delete_collection
  rw [hm]
  have hb : aossBatchGetCollection cid w =
      .ok (w.collections.filter (fun c => c.id == cid)) w [] := rfl
  have hfalse : ((w.collections.filter (fun c => c.id == cid)).length == 1) = false := by
    simpa using hlen
  simp only [bind_apply, hb, hfalse, beq_self_eq_true, if_true, Bool.false_eq_true, if_false,
    pure_apply, List.nil_append]

/-- Witness for claim C10: an aoss collection identifier whose collection is
already absent makes the handler a silent no-op. -/
theorem delete_collection_missing_noop_witness :
    (reMatch1 "collection/" "collection/c1" = some "c1" ∧
      ((AwsWorld.mk [] [] [] [] [] [] [] [] [] [] [] "1").collections.filter
          (fun c => c.id == "c1")).length ≠ 1) ∧
    delete_collection "arn:aws:aoss:r:1:collection/c1" "aoss" "collection/c1"
        (AwsWorld.mk [] [] [] [] [] [] [] [] [] [] [] "1") =
      Res.ok () (AwsWorld.mk [] [] [] [] [] [] [] [] [] [] [] "1") [] :=
  ⟨⟨by decide, by decide⟩,
   delete_collection_missing_noop "arn:aws:aoss:r:1:collection/c1" "collection/c1"
     (AwsWorld.mk [] [] [] [] [] [] [] [] [] [] [] "1") "c1" (by decide) (by decide)⟩

/-- Two nonempty literal patterns with different first characters cannot
both be prefixes of the same character list. -/
theorem cons_isPrefixOf_excl {a b : Char} {l₁ l₂ l : List Char} (hab : a ≠ b)
    (h₁ : (a :: l₁).isPrefixOf l = true) (h₂ : (b :: l₂).isPrefixOf l = true) : False := by
  cases l with
  | nil => simp [List.isPrefixOf] at h₁
  | cons c cs =>
    simp [List.isPrefixOf] at h₁ h₂
    exact hab (h₁.1.trans h₂.1.symm)

/-- A successful regex prefix match implies the literal prefix. -/
theorem reMatch1_isSome_prefix {pre s : String} (h : (reMatch1 pre s).isSome = true) :
    pre.data.isPrefixOf s.data = true := by
  unfold reMatch1 at h
  by_cases hp : pre.data.isPrefixOf s.data = true
  · exact hp
  · simp [hp] at h

/-- No resource path matches both the guardrail and the knowledge-base
pattern. -/
theorem guardrail_kb_excl {r : String} (h₁ : (reMatch1 "guardrail/" r).isSome = true)
    (h₂ : (reMatch1 "knowledge-base/" r).isSome = true) : False := by
  have p₁ := reMatch1_isSome_prefix h₁
  have p₂ := reMatch1_isSome_prefix h₂
  rw [show "guardrail/".data = 'g' :: "uardrail/".data from rfl] at p₁
  rw [show "knowledge-base/".data = 'k' :: "nowledge-base/".data from rfl] at p₂
  exact cons_isPrefixOf_excl (by decide) p₁ p₂

/-- No resource path matches both the guardrail and the agent pattern. -/
theorem guardrail_agent_excl {r : String} (h₁ : (reMatch1 "guardrail/" r).isSome = true)
    (h₂ : (reMatch1 "agent/" r).isSome = true) : False := by
  have p₁ := reMatch1_isSome_prefix h₁
  have p₂ := reMatch1_isSome_prefix h₂
  rw [show "guardrail/".data = 'g' :: "uardrail/".data from rfl] at p₁
  rw [show "agent/".data = 'a' :: "gent/".data from rfl] at p₂
  exact cons_isPrefixOf_excl (by decide) p₁ p₂

/-- No resource path matches both the knowledge-base and the agent
pattern. -/
theorem kb_agent_excl {r : String} (h₁ : (reMatch1 "knowledge-base/" r).isSome = true)
    (h₂ : (reMatch1 "agent/" r).isSome = true) : False := by
  have p₁ := reMatch1_isSome_prefix h₁
  have p₂ := reMatch1_isSome_prefix h₂
  rw [show "knowledge-base/".data = 'k' :: "nowledge-base/".data from rfl] at p₁
  rw [show "agent/".data = 'a' :: "gent/".data from rfl] at p₂
  exact cons_isPrefixOf_excl (by decide) p₁ p₂

/-- No resource path matches both the role and the policy pattern. -/
theorem role_policy_excl {r : String} (h₁ : (reMatch1 "role/" r).isSome = true)
    (h₂ : (reMatch1 "policy/" r).isSome = true) : False := by
  have p₁ := reMatch1_isSome_prefix h₁
  have p₂ := reMatch1_isSome_prefix h₂
  rw [show "role/".data = 'r' :: "ole/".data from rfl] at p₁
  rw [show "policy/".data = 'p' :: "olicy/".data from rfl] at p₂
  exact cons_isPrefixOf_excl (by decide) p₁ p₂

/-- Counting helper for the three bedrock patterns. -/
theorem countP_le_one_bedrock (g k a : Bool) (hgk : g = true → k = true → False)
    (hga : g = true → a = true → False) (hka : k = true → a = true → False) :
    List.countP (fun b => b) [g, false, k, false, false, false, false, false, a] ≤ 1 := by
  cases g <;> cases k <;> cases a <;>
    first
      | decide
      | exact absurd (hgk rfl rfl) (fun f => f)
      | exact absurd (hga rfl rfl) (fun f => f)
      | exact absurd (hka rfl rfl) (fun f => f)

/-- Counting helper for the two iam patterns. -/
theorem countP_le_one_iam (r p : Bool) (hrp : r = true → p = true → False) :
    List.countP (fun b => b) [false, false, false, false, false, r, p, false, false] ≤ 1 := by
  cases r <;> cases p <;>
    first
      | decide
      | exact absurd (hrp rfl rfl) (fun f => f)

/-- Claim C5: for every (service, resource-path) pair, at most one of the
nine handler match conditions holds, so only the intended handler fires. -/
theorem handler_match_conditions_exclusive (service resource : String) :
    (matchConds service resource).countP (fun b => b) ≤ 1 := by
  unfold matchConds matches_guardrail matches_collection matches_knowledgebase matches_bucket
    matches_function matches_roles matches_policy matches_table matches_agent
  by_cases h1 : service = "bedrock"
  · subst h1
    simp only [show (("bedrock" : String) == "bedrock") = true from by decide,
      show (("bedrock" : String) == "aoss") = false from by decide,
      show (("bedrock" : String) == "s3") = false from by decide,
      show (("bedrock" : String) == "lambda") = false from by decide,
      show (("bedrock" : String) == "iam") = false from by decide,
      show (("bedrock" : String) == "dynamodb") = false from by decide,
      Bool.true_and, Bool.false_and]
    exact countP_le_one_bedrock _ _ _ (fun hg hk => guardrail_kb_excl hg hk)
      (fun hg ha => guardrail_agent_excl hg ha) (fun hk ha => kb_agent_excl hk ha)
  by_cases h2 : service = "aoss"
  · subst h2
    simp only [show (("aoss" : String) == "bedrock") = false from by decide,
      show (("aoss" : String) == "aoss") = true from by decide,
      show (("aoss" : String) == "s3") = false from by decide,
      show (("aoss" : String) == "lambda") = false from by decide,
      show (("aoss" : String) == "iam") = false from by decide,
      show (("aoss" : String) == "dynamodb") = false from by decide,
      Bool.true_and, Bool.false_and]
    cases (reMatch1 "collection/" resource).isSome <;> decide
  by_cases h3 : service = "s3"
  · subst h3
    simp only [show (("s3" : String) == "bedrock") = false from by decide,
      show (("s3" : String) == "aoss") = false from by decide,
      show (("s3" : String) == "s3") = true from by decide,
      show (("s3" : String) == "lambda") = false from by decide,
      show (("s3" : String) == "iam") = false from by decide,
      show (("s3" : String) == "dynamodb") = false from by decide,
      Bool.true_and, Bool.false_and]
    decide
  by_cases h4 : service = "lambda"
  · subst h4
    simp only [show (("lambda" : String) == "bedrock") = false from by decide,
      show (("lambda" : String) == "aoss") = false from by decide,
      show (("lambda" : String) == "s3") = false from by decide,
      show (("lambda" : String) == "lambda") = true from by decide,
      show (("lambda" : String) == "iam") = false from by decide,
      show (("lambda" : String) == "dynamodb") = false from by decide,
      Bool.true_and, Bool.false_and]
    cases (reMatch1 "function:" resource).isSome <;> decide
  by_cases h5 : service = "iam"
  · subst h5
    simp only [show (("iam" : String) == "bedrock") = false from by decide,
      show (("iam" : String) == "aoss") = false from by decide,
      show (("iam" : String) == "s3") = false from by decide,
      show (("iam" : String) == "lambda") = false from by decide,
      show (("iam" : String) == "iam") = true from by decide,
      show (("iam" : String) == "dynamodb") = false from by decide,
      Bool.true_and, Bool.false_and]
    exact countP_le_one_iam _ _ (fun hr hp => role_policy_excl hr hp)
  by_cases h6 : service = "dynamodb"
  · subst h6
    simp only [show (("dynamodb" : String) == "bedrock") = false from by decide,
      show (("dynamodb" : String) == "aoss") = false from by decide,
      show (("dynamodb" : String) == "s3") = false from by decide,
      show (("dynamodb" : String) == "lambda") = false from by decide,
      show (("dynamodb" : String) == "iam") = false from by decide,
      show (("dynamodb" : String) == "dynamodb") = true from by decide,
      Bool.true_and, Bool.false_and]
    cases (reMatch1 "table/" resource).isSome <;> decide
  · simp only [beq_eq_false_iff_ne.mpr h1, beq_eq_false_iff_ne.mpr h2,
      beq_eq_false_iff_ne.mpr h3, beq_eq_false_iff_ne.mpr h4, beq_eq_false_iff_ne.mpr h5,
      beq_eq_false_iff_ne.mpr h6, Bool.false_and]
    decide

/-- Every event a computation can emit satisfies the predicate, whatever the
starting world and whether the computation returns or faults. -/
def TraceAll (p : Event → Bool) (m : M α) : Prop :=
  ∀ w, ((m w).trace.all p) = true

/-- Pure returns emit nothing. -/
theorem traceAll_pure (p : Event → Bool) (a : α) : TraceAll p (pure a : M α) := by
  intro w
  rfl

/-- Faults emit nothing. -/
theorem traceAll_raiseErr (p : Event → Bool) (e : AwsError) : TraceAll p (raiseErr e : M α) := by
  intro w
  rfl

/-- Sequencing preserves the trace predicate. -/
theorem traceAll_bind {p : Event → Bool} {m : M α} {k : α → M β}
    (hm : TraceAll p m) (hk : ∀ a, TraceAll p (k a)) : TraceAll p (m >>= k) := by
  intro w
  rw [bind_apply]
  cases h₁ : m w with
  | ok a w' tr =>
    have htr : tr.all p = true := by simpa [Res.trace, h₁] using hm w
    cases h₂ : k a w' with
    | ok b w'' tr' =>
      have htr' : tr'.all p = true := by simpa [Res.trace, h₂] using hk a w'
      simp [Res.trace, List.all_append, htr, htr', h₂]
    | err e w'' tr' =>
      have htr' : tr'.all p = true := by simpa [Res.trace, h₂] using hk a w'
      simp [Res.trace, List.all_append, htr, htr', h₂]
  | err e w' tr =>
    simpa [Res.trace, h₁] using hm w

/-- Emission of a single conforming event. -/
theorem traceAll_emit {p : Event → Bool} (e : Event) (hp : p e = true) : TraceAll p (emit e) := by
  intro w
  simp [emit, Res.trace, hp]

/-- The swallowing try/except preserves the trace predicate. -/
theorem traceAll_tryClientError {p : Event → Bool} {m : M Unit} (hm : TraceAll p m) :
    TraceAll p (tryClientError m) := by
  intro w
  unfold tryClientError
  cases h₁ : m w with
  | ok a w' tr => simpa [Res.trace, h₁] using hm w
  | err e w' tr =>
    cases e <;> simpa [Res.trace, h₁] using hm w

/-- The conflict-catching try/except preserves the trace predicate. -/
theorem traceAll_catchWhen {p : Event → Bool} {q : AwsError → Bool} {m handler : M α}
    (hm : TraceAll p m) (hh : TraceAll p handler) : TraceAll p (catchWhen q m handler) := by
  intro w
  unfold catchWhen
  cases h₁ : m w with
  | ok a w' tr => simpa [Res.trace, h₁] using hm w
  | err e w' tr =>
    have htr : tr.all p = true := by simpa [Res.trace, h₁] using hm w
    by_cases hq : q e = true
    · simp only [hq, if_true]
      cases h₂ : handler w' with
      | ok a w'' tr' =>
        have : tr'.all p = true := by simpa [Res.trace, h₂] using hh w'
        simp [Res.trace, List.all_append, htr, this]
      | err e' w'' tr' =>
        have : tr'.all p = true := by simpa [Res.trace, h₂] using hh w'
        simp [Res.trace, List.all_append, htr, this]
    · simp only [hq, if_false, Bool.false_eq_true]
      simpa [Res.trace] using htr

/-- Trace predicate facts for the read-only provider calls. -/
theorem traceAll_aossBatchGetCollection (cid : String) (p : Event → Bool) :
    TraceAll p (aossBatchGetCollection cid) := by
  intro w
  rfl

/-- Security policy listing emits nothing. -/
theorem traceAll_aossListSecurityPolicies (t rn : String) (p : Event → Bool) :
    TraceAll p (aossListSecurityPolicies t rn) := by
  intro w
  rfl

/-- Access policy listing emits nothing. -/
theorem traceAll_aossListAccessPolicies (t rn : String) (p : Event → Bool) :
    TraceAll p (aossListAccessPolicies t rn) := by
  intro w
  rfl

/-- Knowledge-base lookup emits nothing. -/
theorem traceAll_agentGetKnowledgeBase (kbId : String) (p : Event → Bool) :
    TraceAll p (agentGetKnowledgeBase kbId) := by
  intro w
  unfold agentGetKnowledgeBase
  split <;> rfl

/-- Data-source listing emits nothing. -/
theorem traceAll_agentListDataSources (kbId : String) (p : Event → Bool) :
    TraceAll p (agentListDataSources kbId) := by
  intro w
  unfold agentListDataSources
  split <;> rfl

/-- Data-source lookup emits nothing. -/
theorem traceAll_agentGetDataSource (kbId dsId : String) (p : Event → Bool) :
    TraceAll p (agentGetDataSource kbId dsId) := by
  intro w
  unfold agentGetDataSource
  split
  · split <;> rfl
  · rfl

/-- Object listing emits nothing. -/
theorem traceAll_s3ListObjectPages (b : String) (p : Event → Bool) :
    TraceAll p (s3ListObjectPages b) := by
  intro w
  unfold s3ListObjectPages
  split <;> rfl

/-- Attached-policy listing emits nothing. -/
theorem traceAll_iamListAttachedRolePolicies (r : String) (p : Event → Bool) :
    TraceAll p (iamListAttachedRolePolicies r) := by
  intro w
  unfold iamListAttachedRolePolicies
  split <;> rfl

/-- Inline-policy listing emits nothing. -/
theorem traceAll_iamListRolePolicies (r : String) (p : Event → Bool) :
    TraceAll p (iamListRolePolicies r) := by
  intro w
  unfold iamListRolePolicies
  split <;> rfl

/-- Instance-profile listing emits nothing. -/
theorem traceAll_iamListInstanceProfilesForRole (r : String) (p : Event → Bool) :
    TraceAll p (iamListInstanceProfilesForRole r) := by
  intro w
  unfold iamListInstanceProfilesForRole
  split <;> rfl

/-- Policy-version listing emits nothing. -/
theorem traceAll_iamListPolicyVersions (a : String) (p : Event → Bool) :
    TraceAll p (iamListPolicyVersions a) := by
  intro w
  unfold iamListPolicyVersions
  split <;> rfl

/-- Security-policy deletion emits only its own deletion event. -/
theorem traceAll_aossDeleteSecurityPolicy (n t : String) {p : Event → Bool}
    (hp : p (Event.deleteSecurityPolicy n t) = true) :
    TraceAll p (aossDeleteSecurityPolicy n t) := by
  intro w
  unfold aossDeleteSecurityPolicy
  split <;> simp [Res.trace, hp]

/-- Access-policy deletion emits only its own deletion event. -/
theorem traceAll_aossDeleteAccessPolicy (n t : String) {p : Event → Bool}
    (hp : p (Event.deleteAccessPolicy n t) = true) :
    TraceAll p (aossDeleteAccessPolicy n t) := by
  intro w
  unfold aossDeleteAccessPolicy
  split <;> simp [Res.trace, hp]

/-- Collection deletion emits only its own deletion event. -/
theorem traceAll_aossDeleteCollection (cid : String) {p : Event → Bool}
    (hp : p (Event.deleteCollection cid) = true) :
    TraceAll p (aossDeleteCollection cid) := by
  intro w
  unfold aossDeleteCollection
  split <;> simp [Res.trace, hp]

/-- Guardrail deletion emits only its own deletion event. -/
theorem traceAll_bedrockDeleteGuardrail (g : String) {p : Event → Bool}
    (hp : p (Event.deleteGuardrail g) = true) :
    TraceAll p (bedrockDeleteGuardrail g) := by
  intro w
  unfold bedrockDeleteGuardrail
  split <;> simp [Res.trace, hp]

/-- Data-source update emits only its own update event. -/
theorem traceAll_agentUpdateDataSource (kbId dsId n c v pol : String) {p : Event → Bool}
    (hp : p (Event.updateDataSource kbId dsId pol) = true) :
    TraceAll p (agentUpdateDataSource kbId dsId n c v pol) := by
  intro w
  unfold agentUpdateDataSource
  split
  · split <;> simp [Res.trace, hp]
  · rfl

/-- Data-source deletion emits only its own deletion event. -/
theorem traceAll_agentDeleteDataSource (kbId dsId : String) {p : Event → Bool}
    (hp : p (Event.deleteDataSource kbId dsId) = true) :
    TraceAll p (agentDeleteDataSource kbId dsId) := by
  intro w
  unfold agentDeleteDataSource
  split
  · split <;> simp [Res.trace, hp]
  · rfl

/-- Knowledge-base deletion emits only its own deletion event. -/
theorem traceAll_agentDeleteKnowledgeBase (kbId : String) {p : Event → Bool}
    (hp : p (Event.deleteKnowledgeBase kbId) = true) :
    TraceAll p (agentDeleteKnowledgeBase kbId) := by
  intro w
  unfold agentDeleteKnowledgeBase
  split <;> simp [Res.trace, hp]

/-- Object batch-deletion emits only its own deletion event. -/
theorem traceAll_s3DeleteObjects (b : String) (keys : List String) {p : Event → Bool}
    (hp : p (Event.deleteObjects b keys) = true) :
    TraceAll p (s3DeleteObjects b keys) := by
  intro w
  unfold s3DeleteObjects
  split <;> simp [Res.trace, hp]

/-- Bucket deletion emits only its own deletion event. -/
theorem traceAll_s3DeleteBucket (b : String) {p : Event → Bool}
    (hp : p (Event.deleteBucket b) = true) :
    TraceAll p (s3DeleteBucket b) := by
  intro w
  unfold s3DeleteBucket
  split
  · split <;> simp [Res.trace, hp]
  · rfl

/-- Policy detachment emits only its own event. -/
theorem traceAll_iamDetachRolePolicy (r a : String) {p : Event → Bool}
    (hp : p (Event.detachRolePolicy r a) = true) :
    TraceAll p (iamDetachRolePolicy r a) := by
  intro w
  unfold iamDetachRolePolicy
  split
  · split <;> simp [Res.trace, hp]
  · rfl

/-- Inline-policy deletion emits only its own event. -/
theorem traceAll_iamDeleteRolePolicy (r n : String) {p : Event → Bool}
    (hp : p (Event.deleteRolePolicy r n) = true) :
    TraceAll p (iamDeleteRolePolicy r n) := by
  intro w
  unfold iamDeleteRolePolicy
  split
  · split <;> simp [Res.trace, hp]
  · rfl

/-- Instance-profile removal emits only its own event. -/
theorem traceAll_iamRemoveRoleFromInstanceProfile (pr r : String) {p : Event → Bool}
    (hp : p (Event.removeRoleFromInstanceProfile pr r) = true) :
    TraceAll p (iamRemoveRoleFromInstanceProfile pr r) := by
  intro w
  unfold iamRemoveRoleFromInstanceProfile
  split
  · split <;> simp [Res.trace, hp]
  · rfl

/-- Role deletion emits only its own event. -/
theorem traceAll_iamDeleteRole (r : String) {p : Event → Bool}
    (hp : p (Event.deleteRole r) = true) :
    TraceAll p (iamDeleteRole r) := by
  intro w
  unfold iamDeleteRole
  split <;> simp [Res.trace, hp]

/-- Policy-version deletion emits only its own event. -/
theorem traceAll_iamDeletePolicyVersion (a v : String) {p : Event → Bool}
    (hp : p (Event.deletePolicyVersion a v) = true) :
    TraceAll p (iamDeletePolicyVersion a v) := by
  intro w
  unfold iamDeletePolicyVersion
  split <;> simp [Res.trace, hp]

/-- Policy deletion emits only its own event. -/
theorem traceAll_iamDeletePolicy (a : String) {p : Event → Bool}
    (hp : p (Event.deletePolicy a) = true) :
    TraceAll p (iamDeletePolicy a) := by
  intro w
  unfold iamDeletePolicy
  split <;> simp [Res.trace, hp]

/-- Function deletion emits only its own event. -/
theorem traceAll_lambdaDeleteFunction (f : String) {p : Event → Bool}
    (hp : p (Event.deleteFunction f) = true) :
    TraceAll p (lambdaDeleteFunction f) := by
  intro w
  unfold lambdaDeleteFunction
  split <;> simp [Res.trace, hp]

/-- Table deletion emits only its own event. -/
theorem traceAll_dynamodbDeleteTable (t : String) {p : Event → Bool}
    (hp : p (Event.deleteTable t) = true) :
    TraceAll p (dynamodbDeleteTable t) := by
  intro w
  unfold dynamodbDeleteTable
  split <;> simp [Res.trace, hp]

/-- Agent deletion emits only its own event. -/
theorem traceAll_agentDeleteAgent (a : String) {p : Event → Bool}
    (hp : p (Event.deleteAgent a) = true) :
    TraceAll p (agentDeleteAgent a) := by
  intro w
  unfold agentDeleteAgent
  split <;> simp [Res.trace, hp]

/-- The security-policy deletion loop emits only security-policy deletion
events of the given type. -/
theorem traceAll_deleteSecurityPolicyList {p : Event → Bool} (t : String)
    (hp : ∀ n, p (Event.deleteSecurityPolicy n t) = true) :
    ∀ ps, TraceAll p (deleteSecurityPolicyList t ps) := by
  intro ps
  induction ps with
  | nil => exact traceAll_pure p ()
  | cons q rest ih =>
    unfold deleteSecurityPolicyList
    exact traceAll_bind (traceAll_aossDeleteSecurityPolicy q.name t (hp q.name)) (fun _ => ih)

/-- The security-policy type loop emits only security-policy deletion
events. -/
theorem traceAll_deleteSecurityPolicyTypes {p : Event → Bool} (rn : String)
    (hp : ∀ n t, p (Event.deleteSecurityPolicy n t) = true) :
    ∀ ts, TraceAll p (deleteSecurityPolicyTypes rn ts) := by
  intro ts
  induction ts with
  | nil => exact traceAll_pure p ()
  | cons t rest ih =>
    unfold deleteSecurityPolicyTypes
    exact traceAll_bind (traceAll_aossListSecurityPolicies t rn p)
      (fun ps => traceAll_bind (traceAll_deleteSecurityPolicyList t (fun n => hp n t) ps) (fun _ => ih))

/-- The access-policy deletion loop emits only access-policy deletion
events. -/
theorem traceAll_deleteAccessPolicyList {p : Event → Bool}
    (hp : ∀ n, p (Event.deleteAccessPolicy n "data") = true) :
    ∀ ps, TraceAll p (deleteAccessPolicyList ps) := by
  intro ps
  induction ps with
  | nil => exact traceAll_pure p ()
  | cons q rest ih =>
    unfold deleteAccessPolicyList
    exact traceAll_bind (traceAll_aossDeleteAccessPolicy q.name "data" (hp q.name)) (fun _ => ih)

/-- Appending a trace with no collection deletion in front preserves the C6
checker. -/
theorem noPolicyDeleteAfterCollection_append {A B : List Event}
    (hA : A.all (fun e => !isCollectionDeleteEvent e) = true)
    (hB : noPolicyDeleteAfterCollection B = true) :
    noPolicyDeleteAfterCollection (A ++ B) = true := by
  induction A with
  | nil => simpa using hB
  | cons e rest ih =>
    simp only [List.all_cons, Bool.and_eq_true, Bool.not_eq_true'] at hA
    simp only [List.cons_append, noPolicyDeleteAfterCollection, hA.1, Bool.false_eq_true,
      if_false, Bool.true_and]
    exact ih hA.2

/-- A trace with no collection deletion at all passes the C6 checker. -/
theorem noPolicyDeleteAfterCollection_of_all {A : List Event}
    (hA : A.all (fun e => !isCollectionDeleteEvent e) = true) :
    noPolicyDeleteAfterCollection A = true := by
  induction A with
  | nil => rfl
  | cons e rest ih =>
    simp only [List.all_cons, Bool.and_eq_true, Bool.not_eq_true'] at hA
    simp only [noPolicyDeleteAfterCollection, hA.1, Bool.false_eq_true, if_false, Bool.true_and]
    exact ih hA.2

/-- Claim C6: in the trace of calls delete_collection makes, every security
and access policy deletion precedes the collection deletion; no policy
deletion ever follows the delete-collection call. -/
theorem delete_collection_policy_order (arn service resource : String) (w : AwsWorld) :
    noPolicyDeleteAfterCollection ((delete_collection arn service resource w).trace) = true := by
  unfold delete_collection
  cases hm : reMatch1 "collection/" resource with
  | none => rfl
  | some cid =>
    dsimp only
    by_cases hs : (service == "aoss") = true
    · rw [if_pos hs]
      have hb : aossBatchGetCollection cid w =
          .ok (w.collections.filter (fun c => c.id == cid)) w [] := rfl
      by_cases hlen : (w.collections.filter (fun c => c.id == cid)).length = 1
      · cases hl : w.collections.filter (fun c => c.id == cid) with
        | nil =>
          rw [hl] at hlen
          simp at hlen
        | cons collection tail =>
          have hcond : (((collection :: tail).length == 1)) = true := by
            rw [← hl]
            simpa using hlen
          have hsec : TraceAll (fun e => !isCollectionDeleteEvent e)
              (deleteSecurityPolicyTypes ("collection/" ++ collection.name)
                ["encryption", "network"]) :=
            traceAll_deleteSecurityPolicyTypes _ (fun n t => rfl) _
          cases h₁ : deleteSecurityPolicyTypes ("collection/" ++ collection.name)
              ["encryption", "network"] w with
          | err e w₁ tr₁ =>
            have htr : tr₁.all (fun e => !isCollectionDeleteEvent e) = true := by
              have hh := hsec w
              rw [h₁] at hh
              simpa [Res.trace] using hh
            simp only [bind_apply, hb, hl, hcond, if_true, h₁, Res.trace, List.nil_append]
            exact noPolicyDeleteAfterCollection_of_all htr
          | ok u w₁ tr₁ =>
            have htr : tr₁.all (fun e => !isCollectionDeleteEvent e) = true := by
              have hh := hsec w
              rw [h₁] at hh
              simpa [Res.trace] using hh
            have ha : aossListAccessPolicies "data" ("collection/" ++ collection.name) w₁ =
                .ok (w₁.accessPolicies.filter (fun q =>
                  q.ptype == "data" &&
                    q.resources.contains ("collection/" ++ collection.name))) w₁ [] := rfl
            have hacc : TraceAll (fun e => !isCollectionDeleteEvent e)
                (deleteAccessPolicyList (w₁.accessPolicies.filter (fun q =>
                  q.ptype == "data" &&
                    q.resources.contains ("collection/" ++ collection.name)))) :=
              traceAll_deleteAccessPolicyList (fun n => rfl) _
            cases h₂ : deleteAccessPolicyList (w₁.accessPolicies.filter (fun q =>
                q.ptype == "data" &&
                  q.resources.contains ("collection/" ++ collection.name))) w₁ with
            | err e w₂ tr₂ =>
              have htr₂ : tr₂.all (fun e => !isCollectionDeleteEvent e) = true := by
                have hh := hacc w₁
                rw [h₂] at hh
                simpa [Res.trace] using hh
              simp only [bind_apply, hb, hl, hcond, if_true, h₁, ha, h₂, Res.trace,
                List.nil_append]
              exact noPolicyDeleteAfterCollection_append htr
                (noPolicyDeleteAfterCollection_of_all htr₂)
            | ok u₂ w₂ tr₂ =>
              have htr₂ : tr₂.all (fun e => !isCollectionDeleteEvent e) = true := by
                have hh := hacc w₁
                rw [h₂] at hh
                simpa [Res.trace] using hh
              cases hf : w₂.collections.find? (fun c => c.id == cid) with
              | some c =>
                simp only [bind_apply, hb, hl, hcond, if_true, h₁, ha, h₂,
                  aossDeleteCollection, hf, Res.trace, List.nil_append]
                refine noPolicyDeleteAfterCollection_append htr ?_
                refine noPolicyDeleteAfterCollection_append htr₂ ?_
                simp [noPolicyDeleteAfterCollection, isCollectionDeleteEvent, isPolicyDeleteEvent]
              | none =>
                simp only [bind_apply, hb, hl, hcond, if_true, h₁, ha, h₂,
                  aossDeleteCollection, hf, Res.trace, List.nil_append, List.append_nil]
                exact noPolicyDeleteAfterCollection_append htr
                  (noPolicyDeleteAfterCollection_of_all htr₂)
      · simp [bind_apply, hb, hlen, pure_apply, Res.trace, noPolicyDeleteAfterCollection]
    · rw [if_neg hs]
      rfl

/-- Outcome shapes of the knowledge-base lookup. -/
theorem agentGetKnowledgeBase_cases (kbId : String) (w : AwsWorld) :
    (∃ e, agentGetKnowledgeBase kbId w = .err e w []) ∨
      (∃ kb, agentGetKnowledgeBase kbId w = .ok kb w []) := by
  unfold agentGetKnowledgeBase
  split
  · right
    exact ⟨_, rfl⟩
  · left
    exact ⟨_, rfl⟩

/-- Outcome shapes of the data-source listing. -/
theorem agentListDataSources_cases (kbId : String) (w : AwsWorld) :
    (∃ e, agentListDataSources kbId w = .err e w []) ∨
      (∃ dss, agentListDataSources kbId w = .ok dss w []) := by
  unfold agentListDataSources
  split
  · right
    exact ⟨_, rfl⟩
  · left
    exact ⟨_, rfl⟩

/-- Outcome shapes of the data-source lookup. -/
theorem agentGetDataSource_cases (kbId dsId : String) (w : AwsWorld) :
    (∃ e, agentGetDataSource kbId dsId w = .err e w []) ∨
      (∃ d, agentGetDataSource kbId dsId w = .ok d w []) := by
  unfold agentGetDataSource
  split
  · split
    · right
      exact ⟨_, rfl⟩
    · left
      exact ⟨_, rfl⟩
  · left
    exact ⟨_, rfl⟩

/-- Outcome shapes of the data-source update: a fault with no event, or
success emitting exactly the update event. -/
theorem agentUpdateDataSource_cases (kbId dsId n c v pol : String) (w : AwsWorld) :
    (∃ e, agentUpdateDataSource kbId dsId n c v pol w = .err e w []) ∨
      (∃ w', agentUpdateDataSource kbId dsId n c v pol w =
        .ok () w' [Event.updateDataSource kbId dsId pol]) := by
  unfold agentUpdateDataSource
  split
  · split
    · right
      exact ⟨_, rfl⟩
    · left
      exact ⟨_, rfl⟩
  · left
    exact ⟨_, rfl⟩

/-- Outcome shapes of the data-source deletion. -/
theorem agentDeleteDataSource_cases (kbId dsId : String) (w : AwsWorld) :
    (∃ e, agentDeleteDataSource kbId dsId w = .err e w []) ∨
      (∃ w', agentDeleteDataSource kbId dsId w = .ok () w' [Event.deleteDataSource kbId dsId]) := by
  unfold agentDeleteDataSource
  split
  · split
    · right
      exact ⟨_, rfl⟩
    · left
      exact ⟨_, rfl⟩
  · left
    exact ⟨_, rfl⟩

/-- Outcome shapes of the knowledge-base deletion. -/
theorem agentDeleteKnowledgeBase_cases (kbId : String) (w : AwsWorld) :
    (∃ e, agentDeleteKnowledgeBase kbId w = .err e w []) ∨
      (∃ w', agentDeleteKnowledgeBase kbId w = .ok () w' [Event.deleteKnowledgeBase kbId]) := by
  unfold agentDeleteKnowledgeBase
  split
  · right
    exact ⟨_, rfl⟩
  · left
    exact ⟨_, rfl⟩

/-- The data-source loop emits only update and data-source deletion events
of its knowledge base. -/
theorem traceAll_deleteDataSourceList {p : Event → Bool} (kb : String)
    (hp₁ : ∀ ds, p (Event.updateDataSource kb ds "RETAIN") = true)
    (hp₂ : ∀ ds, p (Event.deleteDataSource kb ds) = true) :
    ∀ dss, TraceAll p (deleteDataSourceList kb dss) := by
  intro dss
  induction dss with
  | nil => exact traceAll_pure p ()
  | cons ds rest ih =>
    unfold deleteDataSourceList
    exact traceAll_bind (traceAll_agentGetDataSource kb ds.dsId p) (fun d =>
      traceAll_bind
        (traceAll_agentUpdateDataSource kb ds.dsId d.name d.config d.vectorConfig "RETAIN"
          (hp₁ ds.dsId))
        (fun _ =>
          traceAll_bind (traceAll_agentDeleteDataSource kb ds.dsId (hp₂ ds.dsId)) (fun _ => ih)))

/-- The C7 pairing checker holds across an append when it holds on the front
and on the back for every incoming previous event. -/
theorem retainPaired_append {A B : List Event} (prev : Option Event)
    (hA : retainPaired prev A = true) (hB : ∀ q, retainPaired q B = true) :
    retainPaired prev (A ++ B) = true := by
  induction A generalizing prev with
  | nil => exact hB prev
  | cons e rest ih =>
    simp only [List.cons_append, retainPaired, Bool.and_eq_true] at hA ⊢
    exact ⟨hA.1, ih (some e) hA.2⟩

/-- Every trace the data-source loop can produce satisfies the pairing
checker, whatever event preceded it. -/
theorem retainPaired_deleteDataSourceList (kb : String) :
    ∀ (dss : List DataSource) (w : AwsWorld) (prev : Option Event),
      retainPaired prev ((deleteDataSourceList kb dss w).trace) = true := by
  intro dss
  induction dss with
  | nil =>
    intro w prev
    rfl
  | cons ds rest ih =>
    intro w prev
    unfold deleteDataSourceList
    rcases agentGetDataSource_cases kb ds.dsId w with ⟨e, hg⟩ | ⟨d, hg⟩
    · simp [bind_apply, hg, Res.trace, retainPaired]
    · rcases agentUpdateDataSource_cases kb ds.dsId d.name d.config d.vectorConfig "RETAIN" w with
        ⟨e, hu⟩ | ⟨w₁, hu⟩
      · simp [bind_apply, hg, hu, Res.trace, retainPaired]
      · rcases agentDeleteDataSource_cases kb ds.dsId w₁ with ⟨e, hd⟩ | ⟨w₂, hd⟩
        · simp [bind_apply, hg, hu, hd, Res.trace, retainPaired]
        · cases h₃ : deleteDataSourceList kb rest w₂ with
          | ok u w₃ tr₃ =>
            have ihw := ih w₂ (some (Event.deleteDataSource kb ds.dsId))
            rw [h₃] at ihw
            simp only [Res.trace] at ihw
            simp [bind_apply, hg, hu, hd, h₃, Res.trace, retainPaired, ihw]
          | err e₃ w₃ tr₃ =>
            have ihw := ih w₂ (some (Event.deleteDataSource kb ds.dsId))
            rw [h₃] at ihw
            simp only [Res.trace] at ihw
            simp [bind_apply, hg, hu, hd, h₃, Res.trace, retainPaired, ihw]

/-- A trace with no knowledge-base deletion at all passes the C7 order
checker. -/
theorem noDsDeleteAfterKb_of_all {A : List Event}
    (hA : A.all (fun e => !isKbDeleteEvent e) = true) :
    noDsDeleteAfterKb A = true := by
  induction A with
  | nil => rfl
  | cons e rest ih =>
    simp only [List.all_cons, Bool.and_eq_true, Bool.not_eq_true'] at hA
    simp only [noDsDeleteAfterKb, hA.1, Bool.false_eq_true, if_false, Bool.true_and]
    exact ih hA.2

/-- Appending a knowledge-base-deletion-free front preserves the C7 order
checker. -/
theorem noDsDeleteAfterKb_append {A B : List Event}
    (hA : A.all (fun e => !isKbDeleteEvent e) = true)
    (hB : noDsDeleteAfterKb B = true) :
    noDsDeleteAfterKb (A ++ B) = true := by
  induction A with
  | nil => simpa using hB
  | cons e rest ih =>
    simp only [List.all_cons, Bool.and_eq_true, Bool.not_eq_true'] at hA
    simp only [List.cons_append, noDsDeleteAfterKb, hA.1, Bool.false_eq_true, if_false,
      Bool.true_and]
    exact ih hA.2

/-- A trace whose events all satisfy the negation of a test cannot contain
an event satisfying it. -/
theorem not_mem_of_all_not {p : Event → Bool} {tr : List Event} {e : Event}
    (hall : tr.all (fun x => !p x) = true) (hp : p e = true) : e ∉ tr := by
  intro hmem
  have := List.all_eq_true.mp hall e hmem
  simp [hp] at this

/-- When the data-source loop returns normally, every listed data source
got its deletion event: the loop clears all of them. -/
theorem deleteDataSourceList_complete (kb : String) :
    ∀ (dss : List DataSource) (w : AwsWorld) (u : Unit) (w' : AwsWorld) (tr : List Event),
      deleteDataSourceList kb dss w = .ok u w' tr →
      ∀ ds ∈ dss, Event.deleteDataSource kb ds.dsId ∈ tr := by
  intro dss
  induction dss with
  | nil =>
    intro w u w' tr h ds hds
    simp at hds
  | cons ds rest ih =>
    intro w u w' tr h dsx hmem
    unfold deleteDataSourceList at h
    rcases agentGetDataSource_cases kb ds.dsId w with ⟨e, hg⟩ | ⟨d, hg⟩
    · exact Res.noConfusion ((bind_err hg).symm.trans h)
    · rcases agentUpdateDataSource_cases kb ds.dsId d.name d.config d.vectorConfig "RETAIN" w with
        ⟨e, hu⟩ | ⟨w₁, hu⟩
      · exact Res.noConfusion ((bind_ok_err hg (bind_err hu)).symm.trans h)
      · rcases agentDeleteDataSource_cases kb ds.dsId w₁ with ⟨e, hd⟩ | ⟨w₂, hd⟩
        · exact Res.noConfusion ((bind_ok_err hg (bind_ok_err hu (bind_err hd))).symm.trans h)
        · cases h₃ : deleteDataSourceList kb rest w₂ with
          | ok u₃ w₃ tr₃ =>
            have heq := (bind_ok_ok hg (bind_ok_ok hu (bind_ok_ok hd h₃))).symm.trans h
            injection heq with hu' hw' htr'
            rw [← htr']
            rcases List.mem_cons.mp hmem with hdeq | hmem'
            · subst hdeq
              simp
            · have hin := ih w₂ u₃ w₃ tr₃ h₃ dsx hmem'
              simp [hin]
          | err e₃ w₃ tr₃ =>
            exact Res.noConfusion
              ((bind_ok_err hg (bind_ok_err hu (bind_ok_err hd h₃))).symm.trans h)

/-- Claim C7: in every run of delete_knowledgebase, each data-source
deletion is immediately preceded by the RETAIN update of that same data
source, no data-source deletion follows the knowledge-base deletion, and
whenever the knowledge-base deletion was issued, every data source of the
knowledge base got its deletion event (necessarily earlier in the
trace). -/
theorem delete_knowledgebase_retain_order (arn service resource : String) (w : AwsWorld) :
    retainPaired none ((delete_knowledgebase arn service resource w).trace) = true ∧
    noDsDeleteAfterKb ((delete_knowledgebase arn service resource w).trace) = true ∧
    (∀ kbid kb, reMatch1 "knowledge-base/" resource = some kbid →
      w.knowledgeBases.find? (fun k => k.kbId == kbid) = some kb →
      Event.deleteKnowledgeBase kbid ∈ (delete_knowledgebase arn service resource w).trace →
      ∀ ds ∈ kb.dataSources,
        Event.deleteDataSource kbid ds.dsId ∈
          (delete_knowledgebase arn service resource w).trace) := by
  unfold delete_knowledgebase
  cases hm : reMatch1 "knowledge-base/" resource with
  | none =>
    refine ⟨rfl, rfl, ?_⟩
    intro kbid kb hre
    exact absurd hre (by simp)
  | some kb_id =>
    dsimp only
    by_cases hs : (service == "bedrock") = true
    · rw [if_pos hs]
      cases hf : w.knowledgeBases.find? (fun k => k.kbId == kb_id) with
      | none =>
        have hget : agentGetKnowledgeBase kb_id w = .err (.notFound kb_id) w [] := by
          unfold agentGetKnowledgeBase
          rw [hf]
        rw [bind_err hget]
        refine ⟨rfl, rfl, ?_⟩
        intro kbid kb hre hfind
        injection hre with hkb
        subst hkb
        rw [hf] at hfind
        exact absurd hfind (by simp)
      | some kb =>
        have hget : agentGetKnowledgeBase kb_id w = .ok kb w [] := by
          unfold agentGetKnowledgeBase
          rw [hf]
        have hlist : agentListDataSources kb_id w = .ok kb.dataSources w [] := by
          unfold agentListDataSources
          rw [hf]
        have hkbfree : TraceAll (fun e => !isKbDeleteEvent e)
            (deleteDataSourceList kb_id kb.dataSources) :=
          traceAll_deleteDataSourceList kb_id (fun ds => rfl) (fun ds => rfl) kb.dataSources
        cases h₁ : deleteDataSourceList kb_id kb.dataSources w with
        | err e w₁ tr₁ =>
          have hpair := retainPaired_deleteDataSourceList kb_id kb.dataSources w none
          rw [h₁] at hpair
          simp only [Res.trace] at hpair
          have hall : tr₁.all (fun e => !isKbDeleteEvent e) = true := by
            have hh := hkbfree w
            rw [h₁] at hh
            simpa [Res.trace] using hh
          rw [bind_ok_err hget (bind_ok_err hlist (bind_err h₁))]
          refine ⟨?_, ?_, ?_⟩
          · simpa [Res.trace] using hpair
          · simpa [Res.trace] using noDsDeleteAfterKb_of_all hall
          · intro kbid kb' hre hfind hmem
            injection hre with hkb
            subst hkb
            simp only [Res.trace, List.nil_append] at hmem
            exact absurd hmem (not_mem_of_all_not hall rfl)
        | ok u w₁ tr₁ =>
          have hpair := retainPaired_deleteDataSourceList kb_id kb.dataSources w none
          rw [h₁] at hpair
          simp only [Res.trace] at hpair
          have hall : tr₁.all (fun e => !isKbDeleteEvent e) = true := by
            have hh := hkbfree w
            rw [h₁] at hh
            simpa [Res.trace] using hh
          rcases agentDeleteKnowledgeBase_cases kb_id w₁ with ⟨e, hk⟩ | ⟨w₂, hk⟩
          · rw [bind_ok_err hget (bind_ok_err hlist (bind_ok_err h₁ hk))]
            refine ⟨?_, ?_, ?_⟩
            · simpa [Res.trace] using hpair
            · simpa [Res.trace] using noDsDeleteAfterKb_of_all hall
            · intro kbid kb' hre hfind hmem
              injection hre with hkb
              subst hkb
              simp only [Res.trace, List.nil_append, List.append_nil] at hmem
              exact absurd hmem (not_mem_of_all_not hall rfl)
          · rw [bind_ok_ok hget (bind_ok_ok hlist (bind_ok_ok h₁ hk))]
            refine ⟨?_, ?_, ?_⟩
            · simp only [Res.trace, List.nil_append]
              refine retainPaired_append none hpair ?_
              intro q
              simp [retainPaired]
            · simp only [Res.trace, List.nil_append]
              refine noDsDeleteAfterKb_append hall ?_
              simp [noDsDeleteAfterKb, isKbDeleteEvent, isDsDeleteEvent]
            · intro kbid kb' hre hfind hmem dsx hdss
              injection hre with hkb
              subst hkb
              rw [hf] at hfind
              injection hfind with hkb'
              subst hkb'
              simp only [Res.trace, List.nil_append] at hdss ⊢
              exact List.mem_append_left _
                (deleteDataSourceList_complete kb_id kb.dataSources w u w₁ tr₁ h₁ dsx hdss)
    · rw [if_neg hs]
      refine ⟨rfl, rfl, ?_⟩
      intro kbid kb hre hfind hmem
      simp [Res.trace, pure_apply] at hmem

/-- Concrete data sources for the C7 witness. -/
def dsC7a : DataSource := ⟨"ds1", "d1", "c1", "v1", "DELETE"⟩

/-- Second concrete data source for the C7 witness. -/
def dsC7b : DataSource := ⟨"ds2", "d2", "c2", "v2", "DELETE"⟩

/-- Concrete knowledge base with two data sources for the C7 witness. -/
def kbC7 : KnowledgeBase := ⟨"kb1", "kbname", [dsC7a, dsC7b]⟩

/-- Concrete world for the C7 witness. -/
def wC7 : AwsWorld := ⟨[], [], [], [], [kbC7], [], [], [], [], [], [], "1"⟩

/-- Witness for claim C7 at a knowledge base with two data sources: the run
deletes the knowledge base, and both data sources have their deletion
events in the trace. -/
theorem delete_knowledgebase_retain_order_witness :
    (reMatch1 "knowledge-base/" "knowledge-base/kb1" = some "kb1" ∧
      wC7.knowledgeBases.find? (fun k => k.kbId == "kb1") = some kbC7 ∧
      Event.deleteKnowledgeBase "kb1" ∈
        (delete_knowledgebase "arn" "bedrock" "knowledge-base/kb1" wC7).trace ∧
      dsC7a ∈ kbC7.dataSources ∧ dsC7b ∈ kbC7.dataSources) ∧
    Event.deleteDataSource "kb1" "ds1" ∈
      (delete_knowledgebase "arn" "bedrock" "knowledge-base/kb1" wC7).trace ∧
    Event.deleteDataSource "kb1" "ds2" ∈
      (delete_knowledgebase "arn" "bedrock" "knowledge-base/kb1" wC7).trace :=
  ⟨⟨by decide, by decide, by decide, by decide, by decide⟩,
   (delete_knowledgebase_retain_order "arn" "bedrock" "knowledge-base/kb1" wC7).2.2 "kb1" kbC7
     (by decide) (by decide) (by decide) dsC7a (by decide),
   (delete_knowledgebase_retain_order "arn" "bedrock" "knowledge-base/kb1" wC7).2.2 "kb1" kbC7
     (by decide) (by decide) (by decide) dsC7b (by decide)⟩

/-- Outcome shapes of the object batch-deletion. -/
theorem s3DeleteObjects_cases (bn : String) (keys : List String) (w : AwsWorld) :
    (∃ e, s3DeleteObjects bn keys w = .err e w []) ∨
      (∃ w', s3DeleteObjects bn keys w = .ok () w' [Event.deleteObjects bn keys]) := by
  unfold s3DeleteObjects
  split
  · right
    exact ⟨_, rfl⟩
  · left
    exact ⟨_, rfl⟩

/-- Outcome shapes of the bucket deletion. -/
theorem s3DeleteBucket_cases (bn : String) (w : AwsWorld) :
    (∃ e, s3DeleteBucket bn w = .err e w []) ∨
      (∃ w', s3DeleteBucket bn w = .ok () w' [Event.deleteBucket bn]) := by
  unfold s3DeleteBucket
  split
  · split
    · right
      exact ⟨_, rfl⟩
    · left
      exact ⟨_, rfl⟩
  · left
    exact ⟨_, rfl⟩

/-- The page loop emits only object batch-deletion events for its bucket. -/
theorem traceAll_deleteObjectPages {p : Event → Bool} (bn : String)
    (hp : ∀ keys, p (Event.deleteObjects bn keys) = true) :
    ∀ pages, TraceAll p (deleteObjectPages bn pages) := by
  intro pages
  induction pages with
  | nil => exact traceAll_pure p ()
  | cons page rest ih =>
    unfold deleteObjectPages
    refine traceAll_bind ?_ (fun _ => ih)
    by_cases hpg : page.isEmpty = true
    · rw [if_pos hpg]
      exact traceAll_pure p ()
    · rw [if_neg hpg]
      exact traceAll_s3DeleteObjects bn page (hp page)

/-- When the page loop returns normally, every nonempty page was
batch-deleted: its deletion event is in the loop trace. -/
theorem deleteObjectPages_complete (bn : String) :
    ∀ (pages : List (List String)) (w : AwsWorld) (u : Unit) (w' : AwsWorld) (tr : List Event),
      deleteObjectPages bn pages w = .ok u w' tr →
      ∀ page ∈ pages, page ≠ [] → Event.deleteObjects bn page ∈ tr := by
  intro pages
  induction pages with
  | nil =>
    intro w u w' tr h page hp
    simp at hp
  | cons page rest ih =>
    intro w u w' tr h pg hmem hne
    unfold deleteObjectPages at h
    by_cases hpg : page.isEmpty = true
    · rw [if_pos hpg] at h
      cases h₂ : deleteObjectPages bn rest w with
      | ok u₂ w₂ tr₂ =>
        have heq := (bind_ok_ok (pure_apply () w) h₂).symm.trans h
        injection heq with hu hw htr
        rcases List.mem_cons.mp hmem with hpeq | hmem'
        · subst hpeq
          exact absurd (List.isEmpty_iff.mp hpg) hne
        · rw [← htr]
          simpa using ih w u₂ w₂ tr₂ h₂ pg hmem' hne
      | err e₂ w₂ tr₂ =>
        exact Res.noConfusion ((bind_ok_err (pure_apply () w) h₂).symm.trans h)
    · rw [if_neg hpg] at h
      rcases s3DeleteObjects_cases bn page w with ⟨e, hd⟩ | ⟨w₁, hd⟩
      · exact Res.noConfusion ((bind_err hd).symm.trans h)
      · cases h₂ : deleteObjectPages bn rest w₁ with
        | ok u₂ w₂ tr₂ =>
          have heq := (bind_ok_ok hd h₂).symm.trans h
          injection heq with hu hw htr
          rw [← htr]
          rcases List.mem_cons.mp hmem with hpeq | hmem'
          · subst hpeq
            exact List.mem_append_left _ (by simp)
          · exact List.mem_append_right _ (ih w₁ u₂ w₂ tr₂ h₂ pg hmem' hne)
        | err e₂ w₂ tr₂ =>
          exact Res.noConfusion ((bind_ok_err hd h₂).symm.trans h)

/-- A trace with no bucket deletion at all passes the C8 checker. -/
theorem noObjDeleteAfterBucket_of_all {A : List Event}
    (hA : A.all (fun e => !isBucketDeleteEvent e) = true) :
    noObjDeleteAfterBucket A = true := by
  induction A with
  | nil => rfl
  | cons e rest ih =>
    simp only [List.all_cons, Bool.and_eq_true, Bool.not_eq_true'] at hA
    simp only [noObjDeleteAfterBucket, hA.1, Bool.false_eq_true, if_false, Bool.true_and]
    exact ih hA.2

/-- Appending a bucket-deletion-free front preserves the C8 checker. -/
theorem noObjDeleteAfterBucket_append {A B : List Event}
    (hA : A.all (fun e => !isBucketDeleteEvent e) = true)
    (hB : noObjDeleteAfterBucket B = true) :
    noObjDeleteAfterBucket (A ++ B) = true := by
  induction A with
  | nil => simpa using hB
  | cons e rest ih =>
    simp only [List.all_cons, Bool.and_eq_true, Bool.not_eq_true'] at hA
    simp only [List.cons_append, noObjDeleteAfterBucket, hA.1, Bool.false_eq_true, if_false,
      Bool.true_and]
    exact ih hA.2

/-- Claim C8: in every run of delete_bucket, no object batch-deletion
follows the bucket deletion, and whenever the bucket deletion was issued,
every nonempty page of the bucket got a batch-deletion event (necessarily
earlier in the trace). -/
theorem delete_bucket_pages_before_delete (arn service resource : String) (w : AwsWorld) :
    noObjDeleteAfterBucket ((delete_bucket arn service resource w).trace) = true ∧
    (∀ bu, w.buckets.find? (fun b => b.name == resource) = some bu →
      Event.deleteBucket resource ∈ (delete_bucket arn service resource w).trace →
      ∀ page ∈ bu.pages, page ≠ [] →
        Event.deleteObjects resource page ∈ (delete_bucket arn service resource w).trace) := by
  unfold delete_bucket
  by_cases hs : (service == "s3") = true
  · rw [if_pos hs]
    cases hf : w.buckets.find? (fun b => b.name == resource) with
    | none =>
      have hlist : s3ListObjectPages resource w = .err (.notFound resource) w [] := by
        unfold s3ListObjectPages
        rw [hf]
      rw [bind_err hlist]
      constructor
      · rfl
      · intro bu hbu
        exact Option.noConfusion hbu
    | some bu =>
      have hlist : s3ListObjectPages resource w = .ok bu.pages w [] := by
        unfold s3ListObjectPages
        rw [hf]
      have hfree : TraceAll (fun e => !isBucketDeleteEvent e) (deleteObjectPages resource bu.pages) :=
        traceAll_deleteObjectPages resource (fun keys => rfl) bu.pages
      cases h₁ : deleteObjectPages resource bu.pages w with
      | err e w₁ tr₁ =>
        have hall : tr₁.all (fun e => !isBucketDeleteEvent e) = true := by
          have hh := hfree w
          rw [h₁] at hh
          simpa [Res.trace] using hh
        rw [bind_ok_err hlist (bind_err h₁)]
        constructor
        · simpa [Res.trace] using noObjDeleteAfterBucket_of_all hall
        · intro bu' hbu' hdb
          simp only [Res.trace, List.nil_append] at hdb
          exact absurd hdb (not_mem_of_all_not hall rfl)
      | ok u w₁ tr₁ =>
        have hall : tr₁.all (fun e => !isBucketDeleteEvent e) = true := by
          have hh := hfree w
          rw [h₁] at hh
          simpa [Res.trace] using hh
        rcases s3DeleteBucket_cases resource w₁ with ⟨e, hdb⟩ | ⟨w₂, hdb⟩
        · rw [bind_ok_err hlist (bind_ok_err h₁ hdb)]
          constructor
          · simpa [Res.trace] using noObjDeleteAfterBucket_of_all hall
          · intro bu' hbu' hmem
            simp only [Res.trace, List.nil_append, List.append_nil] at hmem
            exact absurd hmem (not_mem_of_all_not hall rfl)
        · rw [bind_ok_ok hlist (bind_ok_ok h₁ hdb)]
          constructor
          · simp only [Res.trace, List.nil_append]
            refine noObjDeleteAfterBucket_append hall ?_
            simp [noObjDeleteAfterBucket, isBucketDeleteEvent, isObjDeleteEvent]
          · intro bu' hbu' hmem page hpage hne
            injection hbu' with hbu2
            subst hbu2
            simp only [Res.trace, List.nil_append] at hpage ⊢
            exact List.mem_append_left _
              (deleteObjectPages_complete resource bu.pages w u w₁ tr₁ h₁ page hpage hne)
  · rw [if_neg hs]
    constructor
    · rfl
    · intro bu hbu hmem
      simp [Res.trace, pure_apply] at hmem

/-- Concrete bucket for the C8 witness: two pages of objects. -/
def buC8 : Bucket := ⟨"bkt", [["k1", "k2"], ["k3"]]⟩

/-- Concrete world for the C8 witness. -/
def wC8 : AwsWorld := ⟨[], [], [], [], [], [buC8], [], [], [], [], [], "1"⟩

/-- Witness for claim C8 at a bucket with more than one page: both pages are
batch-deleted in the trace that ends with the bucket deletion. -/
theorem delete_bucket_pages_before_delete_witness :
    (wC8.buckets.find? (fun b => b.name == "bkt") = some buC8 ∧
      Event.deleteBucket "bkt" ∈ (delete_bucket "arn" "s3" "bkt" wC8).trace ∧
      (["k1", "k2"] ∈ buC8.pages ∧ ["k1", "k2"] ≠ ([] : List String)) ∧
      (["k3"] ∈ buC8.pages ∧ ["k3"] ≠ ([] : List String))) ∧
    Event.deleteObjects "bkt" ["k1", "k2"] ∈ (delete_bucket "arn" "s3" "bkt" wC8).trace ∧
    Event.deleteObjects "bkt" ["k3"] ∈ (delete_bucket "arn" "s3" "bkt" wC8).trace :=
  ⟨⟨by decide, by decide, ⟨by decide, by decide⟩, ⟨by decide, by decide⟩⟩,
   (delete_bucket_pages_before_delete "arn" "s3" "bkt" wC8).2 buC8 (by decide) (by decide)
     ["k1", "k2"] (by decide) (by decide),
   (delete_bucket_pages_before_delete "arn" "s3" "bkt" wC8).2 buC8 (by decide) (by decide)
     ["k3"] (by decide) (by decide)⟩

/-- The detach loop emits only detach events for its role. -/
theorem traceAll_detachAttachedList {p : Event → Bool} (r : String)
    (hp : ∀ a, p (Event.detachRolePolicy r a) = true) :
    ∀ ps, TraceAll p (detachAttachedList r ps) := by
  intro ps
  induction ps with
  | nil => exact traceAll_pure p ()
  | cons q rest ih =>
    unfold detachAttachedList
    exact traceAll_bind (traceAll_iamDetachRolePolicy r q.policyArn (hp q.policyArn)) (fun _ => ih)

/-- The inline-policy loop emits only inline-policy deletion events for its
role. -/
theorem traceAll_deleteInlineList {p : Event → Bool} (r : String)
    (hp : ∀ n, p (Event.deleteRolePolicy r n) = true) :
    ∀ ns, TraceAll p (deleteInlineList r ns) := by
  intro ns
  induction ns with
  | nil => exact traceAll_pure p ()
  | cons n rest ih =>
    unfold deleteInlineList
    exact traceAll_bind (traceAll_iamDeleteRolePolicy r n (hp n)) (fun _ => ih)

/-- The instance-profile loop emits only removal events for its role. -/
theorem traceAll_removeProfileList {p : Event → Bool} (r : String)
    (hp : ∀ pr, p (Event.removeRoleFromInstanceProfile pr r) = true) :
    ∀ ps, TraceAll p (removeProfileList r ps) := by
  intro ps
  induction ps with
  | nil => exact traceAll_pure p ()
  | cons q rest ih =>
    unfold removeProfileList
    exact traceAll_bind (traceAll_iamRemoveRoleFromInstanceProfile q r (hp q)) (fun _ => ih)

/-- The version loop emits only version deletion events for its policy. -/
theorem traceAll_deleteVersionList {p : Event → Bool} (a : String)
    (hp : ∀ v, p (Event.deletePolicyVersion a v) = true) :
    ∀ vs, TraceAll p (deleteVersionList a vs) := by
  intro vs
  induction vs with
  | nil => exact traceAll_pure p ()
  | cons v rest ih =>
    unfold deleteVersionList
    refine traceAll_bind ?_ (fun _ => ih)
    by_cases hv : v.isDefault = true
    · rw [if_pos hv]
      exact traceAll_pure p ()
    · rw [if_neg hv]
      exact traceAll_iamDeletePolicyVersion a v.versionId (hp v.versionId)

/-- The guardrail handler emits no dispatch event. -/
theorem dispatchFree_delete_guardrail (arn service resource : String) :
    TraceAll (fun e => !isDispatch e) (delete_guardrail arn service resource) := by
  unfold delete_guardrail
  cases hm : reMatch1 "guardrail/" resource with
  | none => exact traceAll_pure _ ()
  | some g =>
    dsimp only
    by_cases hs : (service == "bedrock") = true
    · rw [if_pos hs]
      exact traceAll_bedrockDeleteGuardrail arn rfl
    · rw [if_neg hs]
      exact traceAll_pure _ ()

/-- The collection handler emits no dispatch event. -/
theorem dispatchFree_delete_collection (arn service resource : String) :
    TraceAll (fun e => !isDispatch e) (delete_collection arn service resource) := by
  unfold delete_collection
  cases hm : reMatch1 "collection/" resource with
  | none => exact traceAll_pure _ ()
  | some cid =>
    dsimp only
    by_cases hs : (service == "aoss") = true
    · rw [if_pos hs]
      refine traceAll_bind (traceAll_aossBatchGetCollection cid _) (fun collections => ?_)
      by_cases hc : (collections.length == 1) = true
      · rw [if_pos hc]
        cases collections with
        | nil => exact traceAll_pure _ ()
        | cons collection tail =>
          exact traceAll_bind (traceAll_deleteSecurityPolicyTypes _ (fun n t => rfl) _)
            (fun _ => traceAll_bind (traceAll_aossListAccessPolicies _ _ _)
              (fun aps => traceAll_bind (traceAll_deleteAccessPolicyList (fun n => rfl) aps)
                (fun _ => traceAll_aossDeleteCollection cid rfl)))
      · rw [if_neg hc]
        exact traceAll_pure _ ()
    · rw [if_neg hs]
      exact traceAll_pure _ ()

/-- The knowledge-base handler emits no dispatch event. -/
theorem dispatchFree_delete_knowledgebase (arn service resource : String) :
    TraceAll (fun e => !isDispatch e) (delete_knowledgebase arn service resource) := by
  unfold delete_knowledgebase
  cases hm : reMatch1 "knowledge-base/" resource with
  | none => exact traceAll_pure _ ()
  | some kb_id =>
    dsimp only
    by_cases hs : (service == "bedrock") = true
    · rw [if_pos hs]
      exact traceAll_bind (traceAll_agentGetKnowledgeBase kb_id _) (fun _ =>
        traceAll_bind (traceAll_agentListDataSources kb_id _) (fun dss =>
          traceAll_bind (traceAll_deleteDataSourceList kb_id (fun ds => rfl) (fun ds => rfl) dss)
            (fun _ => traceAll_agentDeleteKnowledgeBase kb_id rfl)))
    · rw [if_neg hs]
      exact traceAll_pure _ ()

/-- The bucket handler emits no dispatch event. -/
theorem dispatchFree_delete_bucket (arn service resource : String) :
    TraceAll (fun e => !isDispatch e) (delete_bucket arn service resource) := by
  unfold delete_bucket
  by_cases hs : (service == "s3") = true
  · rw [if_pos hs]
    exact traceAll_bind (traceAll_s3ListObjectPages resource _) (fun pages =>
      traceAll_bind (traceAll_deleteObjectPages resource (fun keys => rfl) pages)
        (fun _ => traceAll_s3DeleteBucket resource rfl))
  · rw [if_neg hs]
    exact traceAll_pure _ ()

/-- The role handler emits no dispatch event. -/
theorem dispatchFree_delete_roles (arn service resource : String) :
    TraceAll (fun e => !isDispatch e) (delete_roles arn service resource) := by
  unfold delete_roles
  cases hm : reMatch1 "role/" resource with
  | none => exact traceAll_pure _ ()
  | some role_name0 =>
    dsimp only
    by_cases hs : (service == "iam") = true
    · rw [if_pos hs]
      exact traceAll_bind (traceAll_iamListAttachedRolePolicies _ _) (fun attached =>
        traceAll_bind (traceAll_detachAttachedList _ (fun a => rfl) attached) (fun _ =>
          traceAll_bind (traceAll_iamListRolePolicies _ _) (fun ns =>
            traceAll_bind (traceAll_deleteInlineList _ (fun n => rfl) ns) (fun _ =>
              traceAll_bind
                (traceAll_tryClientError
                  (traceAll_bind (traceAll_iamListInstanceProfilesForRole _ _)
                    (fun profiles => traceAll_removeProfileList _ (fun pr => rfl) profiles)))
                (fun _ => traceAll_iamDeleteRole _ rfl)))))
    · rw [if_neg hs]
      exact traceAll_pure _ ()

/-- The policy handler emits no dispatch event. -/
theorem dispatchFree_delete_policy (arn service resource : String) :
    TraceAll (fun e => !isDispatch e) (delete_policy arn service resource) := by
  unfold delete_policy
  cases hm : reMatch1 "policy/" resource with
  | none => exact traceAll_pure _ ()
  | some pn =>
    dsimp only
    by_cases hs : (service == "iam") = true
    · rw [if_pos hs]
      exact traceAll_bind (traceAll_iamListPolicyVersions arn _) (fun versions =>
        traceAll_bind (traceAll_deleteVersionList arn (fun v => rfl) versions)
          (fun _ => traceAll_iamDeletePolicy arn rfl))
    · rw [if_neg hs]
      exact traceAll_pure _ ()

/-- The function handler emits no dispatch event. -/
theorem dispatchFree_delete_function (arn service resource : String) :
    TraceAll (fun e => !isDispatch e) (delete_function arn service resource) := by
  unfold delete_function
  cases hm : reMatch1 "function:" resource with
  | none => exact traceAll_pure _ ()
  | some fn =>
    dsimp only
    by_cases hs : (service == "lambda") = true
    · rw [if_pos hs]
      exact traceAll_lambdaDeleteFunction fn rfl
    · rw [if_neg hs]
      exact traceAll_pure _ ()

/-- The table handler emits no dispatch event. -/
theorem dispatchFree_delete_table (arn service resource : String) :
    TraceAll (fun e => !isDispatch e) (delete_table arn service resource) := by
  unfold delete_table
  cases hm : reMatch1 "table/" resource with
  | none => exact traceAll_pure _ ()
  | some tn =>
    dsimp only
    by_cases hs : (service == "dynamodb") = true
    · rw [if_pos hs]
      exact traceAll_dynamodbDeleteTable tn rfl
    · rw [if_neg hs]
      exact traceAll_pure _ ()

/-- The agent handler emits no dispatch event. -/
theorem dispatchFree_delete_agent (arn service resource : String) :
    TraceAll (fun e => !isDispatch e) (delete_agent arn service resource) := by
  unfold delete_agent
  cases hm : reMatch1 "agent/" resource with
  | none => exact traceAll_pure _ ()
  | some an =>
    dsimp only
    by_cases hs : (service == "bedrock") = true
    · rw [if_pos hs]
      exact traceAll_agentDeleteAgent an rfl
    · rw [if_neg hs]
      exact traceAll_pure _ ()

/-- A dispatch-free trace contributes no dispatch entries. -/
theorem dispatches_eq_nil_of_all {tr : List Event}
    (h : tr.all (fun e => !isDispatch e) = true) : dispatches tr = [] := by
  induction tr with
  | nil => rfl
  | cons e rest ih =>
    simp only [List.all_cons, Bool.and_eq_true, Bool.not_eq_true'] at h
    have he : dispatchOf e = none := by
      cases e <;> simp_all [isDispatch, dispatchOf]
    simp only [dispatches, List.filterMap_cons, he]
    exact ih h.2

/-- A prefix on the right extends to a prefix after a common front. -/
theorem prefix_append_front {α : Type} {A X B : List α} (h : X <+: B) :
    (A ++ X) <+: (A ++ B) := by
  obtain ⟨t, ht⟩ := h
  exact ⟨t, by rw [List.append_assoc, ht]⟩

/-- Dispatch entries of one handler sweep: a prefix of the handler/ARN pairs
in identifier order, and exactly those pairs when the sweep returns
normally. -/
theorem sweepOne_dispatches (n : String) (a : String → String → String → M Unit)
    (hfree : ∀ arn s r, TraceAll (fun e => !isDispatch e) (a arn s r)) :
    ∀ (arns : List String) (w : AwsWorld),
      dispatches ((sweepOne n a arns w).trace) <+: arns.map (fun x => (n, x)) ∧
      ((sweepOne n a arns w).isOk = true →
        dispatches ((sweepOne n a arns w).trace) = arns.map (fun x => (n, x))) := by
  intro arns
  induction arns with
  | nil =>
    intro w
    exact ⟨List.nil_prefix, fun _ => rfl⟩
  | cons arn rest ih =>
    intro w
    unfold sweepOne
    cases hp : parse_arn arn with
    | error e =>
      constructor
      · simp [raiseErr, Res.trace, dispatches]
      · intro hok
        simp [raiseErr, Res.isOk] at hok
    | ok pr =>
      obtain ⟨service, resource⟩ := pr
      dsimp only
      have hemit : emit (Event.dispatch n arn) w = .ok () w [Event.dispatch n arn] := rfl
      cases h₁ : a arn service resource w with
      | err e w₁ tr₁ =>
        have htr₁ : dispatches tr₁ = [] := by
          have hh := hfree arn service resource w
          rw [h₁] at hh
          exact dispatches_eq_nil_of_all (by simpa [Res.trace] using hh)
        rw [bind_ok_err hemit (bind_err h₁)]
        constructor
        · simp only [Res.trace, dispatches_append, htr₁, List.append_nil, List.map_cons]
          simp only [dispatches, List.filterMap_cons, dispatchOf, List.filterMap_nil]
          exact List.cons_prefix_cons.mpr ⟨rfl, List.nil_prefix⟩
        · intro hok
          simp [Res.isOk] at hok
      | ok u w₁ tr₁ =>
        have htr₁ : dispatches tr₁ = [] := by
          have hh := hfree arn service resource w
          rw [h₁] at hh
          exact dispatches_eq_nil_of_all (by simpa [Res.trace] using hh)
        cases h₂ : sweepOne n a rest w₁ with
        | ok u₂ w₂ tr₂ =>
          have hrest := ih w₁
          rw [h₂] at hrest
          simp only [Res.trace, Res.isOk] at hrest
          rw [bind_ok_ok hemit (bind_ok_ok h₁ h₂)]
          have hdis : dispatches (Event.dispatch n arn :: (tr₁ ++ tr₂)) =
              (n, arn) :: dispatches tr₂ := by
            simp [dispatches, List.filterMap_cons, dispatchOf, List.filterMap_append]
            simpa [dispatches] using htr₁
          constructor
          · simp only [Res.trace, List.singleton_append, hdis, List.map_cons]
            exact List.cons_prefix_cons.mpr ⟨rfl, hrest.1⟩
          · intro hok
            simp only [Res.trace, List.singleton_append, hdis, List.map_cons]
            rw [hrest.2 trivial]
        | err e₂ w₂ tr₂ =>
          have hrest := ih w₁
          rw [h₂] at hrest
          simp only [Res.trace, Res.isOk] at hrest
          rw [bind_ok_err hemit (bind_ok_err h₁ h₂)]
          have hdis : dispatches (Event.dispatch n arn :: (tr₁ ++ tr₂)) =
              (n, arn) :: dispatches tr₂ := by
            simp [dispatches, List.filterMap_cons, dispatchOf, List.filterMap_append]
            simpa [dispatches] using htr₁
          constructor
          · simp only [Res.trace, List.singleton_append, hdis, List.map_cons]
            exact List.cons_prefix_cons.mpr ⟨rfl, hrest.1⟩
          · intro hok
            simp [Res.isOk] at hok

/-- Dispatch entries of the outer handler loop: a prefix of the full
handler-outer identifier-inner pair list, and exactly that list when the
whole run returns normally. -/
theorem runActions_dispatches (acts : List HandlerEntry)
    (hfree : ∀ q ∈ acts, ∀ arn s r, TraceAll (fun e => !isDispatch e) (q.2 arn s r)) :
    ∀ (arns : List String) (w : AwsWorld),
      dispatches ((runActions acts arns w).trace) <+:
        acts.flatMap (fun q => arns.map (fun x => (q.1, x))) ∧
      ((runActions acts arns w).isOk = true →
        dispatches ((runActions acts arns w).trace) =
          acts.flatMap (fun q => arns.map (fun x => (q.1, x)))) := by
  induction acts with
  | nil =>
    intro arns w
    exact ⟨List.nil_prefix, fun _ => rfl⟩
  | cons q rest ih =>
    intro arns w
    unfold runActions
    have hq := sweepOne_dispatches q.1 q.2 (hfree q (by simp)) arns
    have hfree' : ∀ q' ∈ rest, ∀ arn s r, TraceAll (fun e => !isDispatch e) (q'.2 arn s r) :=
      fun q' hq' => hfree q' (by simp [hq'])
    cases h₁ : sweepOne q.1 q.2 arns w with
    | err e w₁ tr₁ =>
      have hq₁ := hq w
      rw [h₁] at hq₁
      simp only [Res.trace, Res.isOk] at hq₁
      rw [bind_err h₁]
      simp only [Res.trace, Res.isOk, List.flatMap_cons]
      constructor
      · exact hq₁.1.trans (List.prefix_append _ _)
      · intro hok
        exact absurd hok (by simp)
    | ok u w₁ tr₁ =>
      have hq₁ := hq w
      rw [h₁] at hq₁
      simp only [Res.trace, Res.isOk] at hq₁
      have hfirst : dispatches tr₁ = arns.map (fun x => (q.1, x)) := hq₁.2 trivial
      cases h₂ : runActions rest arns w₁ with
      | ok u₂ w₂ tr₂ =>
        have hrest := (ih hfree') arns w₁
        rw [h₂] at hrest
        simp only [Res.trace, Res.isOk] at hrest
        rw [bind_ok_ok h₁ h₂]
        simp only [Res.trace, Res.isOk, List.flatMap_cons, dispatches_append, hfirst]
        constructor
        · exact prefix_append_front hrest.1
        · intro _
          rw [hrest.2 trivial]
      | err e₂ w₂ tr₂ =>
        have hrest := (ih hfree') arns w₁
        rw [h₂] at hrest
        simp only [Res.trace, Res.isOk] at hrest
        rw [bind_ok_err h₁ h₂]
        simp only [Res.trace, Res.isOk, List.flatMap_cons, dispatches_append, hfirst]
        constructor
        · exact prefix_append_front hrest.1
        · intro hok
          exact absurd hok (by simp)

/-- Claim C1: delete_resources dispatches handler outer, identifier inner,
in the fixed handler order guardrail, collection, knowledge-base, bucket,
function, role, policy, table, agent: the dispatch entries of a run are
always a prefix of that pair list (a fault can cut the sweep short), and are
exactly that list when the run returns normally, so every identifier is
dispatched to handler k before any identifier is dispatched to handler
k+1. -/
theorem sweep_handler_outer_identifier_inner (arns : List String) (w : AwsWorld) :
    dispatches ((delete_resources arns w).trace) <+:
      delete_actions.flatMap (fun q => arns.map (fun x => (q.1, x))) ∧
    ((delete_resources arns w).isOk = true →
      dispatches ((delete_resources arns w).trace) =
        delete_actions.flatMap (fun q => arns.map (fun x => (q.1, x)))) := by
  have hfree : ∀ q ∈ delete_actions, ∀ arn s r,
      TraceAll (fun e => !isDispatch e) (q.2 arn s r) := by
    intro q hq
    simp only [delete_actions, List.mem_cons, List.mem_singleton] at hq
    rcases hq with h | h | h | h | h | h | h | h | h | h
    · exact h ▸ dispatchFree_delete_guardrail
    · exact h ▸ dispatchFree_delete_collection
    · exact h ▸ dispatchFree_delete_knowledgebase
    · exact h ▸ dispatchFree_delete_bucket
    · exact h ▸ dispatchFree_delete_function
    · exact h ▸ dispatchFree_delete_roles
    · exact h ▸ dispatchFree_delete_policy
    · exact h ▸ dispatchFree_delete_table
    · exact h ▸ dispatchFree_delete_agent
    · exact absurd h (by simp)
  exact runActions_dispatches delete_actions hfree arns w

/-- Concrete world for the C1 witness. -/
def wC1 : AwsWorld := ⟨[], [], [], [], [], [], [], [], [], ["t1"], [], "1"⟩

/-- Witness for claim C1: a run that returns normally dispatches exactly the
full handler-outer identifier-inner pair list. -/
theorem sweep_handler_outer_identifier_inner_witness :
    (delete_resources ["arn:aws:dynamodb:us-east-1:1:table/t1"] wC1).isOk = true ∧
    dispatches ((delete_resources ["arn:aws:dynamodb:us-east-1:1:table/t1"] wC1).trace) =
      delete_actions.flatMap
        (fun q => ["arn:aws:dynamodb:us-east-1:1:table/t1"].map (fun x => (q.1, x))) :=
  ⟨by decide,
   (sweep_handler_outer_identifier_inner ["arn:aws:dynamodb:us-east-1:1:table/t1"] wC1).2
     (by decide)⟩

/-- Claim C2, amended behavior: the handler calls inside delete_resources
are not guarded. Once any handler sweep raises a provider fault, the fault
propagates out of the run with the trace accumulated so far, and none of the
later handlers in the list is executed. -/
theorem runActions_error_propagates (acts₁ : List HandlerEntry) (nact : HandlerEntry)
    (acts₂ : List HandlerEntry) (arns : List String) (w w₁ w₂ : AwsWorld)
    (tr₁ tr₂ : List Event) (e : AwsError)
    (h₁ : runActions acts₁ arns w = .ok () w₁ tr₁)
    (h₂ : sweepOne nact.1 nact.2 arns w₁ = .err e w₂ tr₂) :
    runActions (acts₁ ++ nact :: acts₂) arns w = .err e w₂ (tr₁ ++ tr₂) := by
  induction acts₁ generalizing w tr₁ with
  | nil =>
    have h₁' : Res.ok () w ([] : List Event) = Res.ok () w₁ tr₁ := h₁
    injection h₁' with hu hw htr
    subst hw
    subst htr
    unfold runActions
    simpa using bind_err h₂
  | cons q rest ih =>
    unfold runActions at h₁
    cases hs : sweepOne q.1 q.2 arns w with
    | err e' w' tr' =>
      exact Res.noConfusion ((bind_err hs).symm.trans h₁)
    | ok u' w' tr' =>
      cases hr : runActions rest arns w' with
      | err e'' w'' tr'' =>
        exact Res.noConfusion ((bind_ok_err hs hr).symm.trans h₁)
      | ok u'' w'' tr'' =>
        obtain ⟨⟩ := u''
        have heq := (bind_ok_ok hs hr).symm.trans h₁
        injection heq with hu hw htr
        subst hw
        subst htr
        have ihr := ih w' tr'' hr
        show runActions (q :: (rest ++ nact :: acts₂)) arns w = _
        unfold runActions
        simpa [List.append_assoc] using bind_ok_err hs ihr

/-- Concrete world for the C2 counterexample: a table exists, the guardrail
referenced by the first identifier does not. -/
def wC2 : AwsWorld := ⟨[], [], [], [], [], [], [], [], [], ["t1"], [], "1"⟩

/-- Concrete identifier list for the C2 counterexample. -/
def arnsC2 : List String :=
  ["arn:aws:bedrock:us-east-1:1:guardrail/g1", "arn:aws:dynamodb:us-east-1:1:table/t1"]

/-- Claim C2, counterexample: the guardrail deletion fault escapes
delete_resources (the run does not return normally), the table identifier is
never dispatched to any handler, and the table survives: the sweep did not
proceed past the failing call. -/
theorem sweep_error_escapes_counterexample :
    (delete_resources arnsC2 wC2).isOk = false ∧
    dispatches ((delete_resources arnsC2 wC2).trace) =
      [("delete_guardrail", "arn:aws:bedrock:us-east-1:1:guardrail/g1")] ∧
    (delete_resources arnsC2 wC2).world.tables = ["t1"] :=
  ⟨by decide, by decide, by decide⟩

/-- Concrete empty world for the C2 witness. -/
def wC2w : AwsWorld := ⟨[], [], [], [], [], [], [], [], [], [], [], "1"⟩

/-- Concrete identifier list for the C2 witness. -/
def arnsC2b : List String := ["arn:aws:dynamodb:us-east-1:1:table/t1"]

/-- The first seven handler entries, as split for the C2 witness. -/
def actsC2a : List HandlerEntry :=
  [("delete_guardrail", delete_guardrail),
   ("delete_collection", delete_collection),
   ("delete_knowledgebase", delete_knowledgebase),
   ("delete_bucket", delete_bucket),
   ("delete_function", delete_function),
   ("delete_roles", delete_roles),
   ("delete_policy", delete_policy)]

/-- Trace of the first seven handler sweeps of the C2 witness: only
dispatches, no deletion succeeds or is attempted. -/
def trC2 : List Event :=
  [.dispatch "delete_guardrail" "arn:aws:dynamodb:us-east-1:1:table/t1",
   .dispatch "delete_collection" "arn:aws:dynamodb:us-east-1:1:table/t1",
   .dispatch "delete_knowledgebase" "arn:aws:dynamodb:us-east-1:1:table/t1",
   .dispatch "delete_bucket" "arn:aws:dynamodb:us-east-1:1:table/t1",
   .dispatch "delete_function" "arn:aws:dynamodb:us-east-1:1:table/t1",
   .dispatch "delete_roles" "arn:aws:dynamodb:us-east-1:1:table/t1",
   .dispatch "delete_policy" "arn:aws:dynamodb:us-east-1:1:table/t1"]

/-- Trace of the failing table sweep of the C2 witness. -/
def trC2b : List Event := [.dispatch "delete_table" "arn:aws:dynamodb:us-east-1:1:table/t1"]

/-- Witness for the amended claim C2 at concrete inputs: the first seven
handler sweeps return normally, the table handler faults on the absent
table, and the fault propagates out of the full run with the agent handler
never executed. -/
theorem runActions_error_propagates_witness :
    (runActions actsC2a arnsC2b wC2w = .ok () wC2w trC2 ∧
      sweepOne "delete_table" delete_table arnsC2b wC2w =
        .err (AwsError.notFound "t1") wC2w trC2b) ∧
    runActions (actsC2a ++ ("delete_table", delete_table) :: [("delete_agent", delete_agent)])
        arnsC2b wC2w = .err (AwsError.notFound "t1") wC2w (trC2 ++ trC2b) :=
  ⟨⟨by decide, by decide⟩,
   runActions_error_propagates actsC2a ("delete_table", delete_table)
     [("delete_agent", delete_agent)] arnsC2b wC2w wC2w wC2w trC2 trC2b
     (AwsError.notFound "t1") (by decide) (by decide)⟩

/-- Concrete guardrail identifier for the C3 counterexample. -/
def arnC3 : String := "arn:aws:bedrock:us-east-1:1:guardrail/g1"

/-- Concrete world for the C3 counterexample: the tagged guardrail exists. -/
def wC3 : AwsWorld := ⟨[], [], [], ["arn:aws:bedrock:us-east-1:1:guardrail/g1"], [], [], [], [], [], [], [], "1"⟩

/-- Claim C3, counterexample: the first sweep over the guardrail identifier
returns normally, and re-running the very same sweep on the resulting world
raises an unhandled fault, so the sweep is not idempotent. -/
theorem second_run_not_idempotent_counterexample :
    (delete_resources [arnC3] wC3).isOk = true ∧
    (delete_resources [arnC3] ((delete_resources [arnC3] wC3).world)).isOk = false :=
  ⟨by decide, by decide⟩

/-- Claim C3, amended behavior: a second run over a stale guardrail
identifier performs zero effectful deletions (the trace holds nothing but
the dispatch), leaves the world unchanged, and raises an unhandled not-found
fault instead of treating the absence as success. -/
theorem second_run_stale_guardrail_faults (w : AwsWorld) (arn resource gid : String)
    (hp : parse_arn arn = Except.ok ("bedrock", resource))
    (hm : reMatch1 "guardrail/" resource = some gid)
    (hg : w.guardrails.contains arn = false) :
    (delete_resources [arn] w).isOk = false ∧
    (delete_resources [arn] w).world = w ∧
    (delete_resources [arn] w).trace.filter (fun e => !isDispatch e) = [] := by
  have hgd : bedrockDeleteGuardrail arn w = .err (.notFound arn) w [] := by
    simp only [bedrockDeleteGuardrail]
    have hg' : ¬(w.guardrails.contains arn = true) := by simpa using hg
    rw [if_neg hg']
  have hguard : delete_guardrail arn "bedrock" resource w = .err (.notFound arn) w [] := by
    unfold delete_guardrail
    rw [hm]
    dsimp only
    rw [if_pos (by decide : (("bedrock" : String) == "bedrock") = true)]
    exact hgd
  have hsweep : sweepOne "delete_guardrail" delete_guardrail [arn] w =
      .err (.notFound arn) w [Event.dispatch "delete_guardrail" arn] := by
    unfold sweepOne
    rw [hp]
    dsimp only
    have hemit : emit (Event.dispatch "delete_guardrail" arn) w =
        .ok () w [Event.dispatch "delete_guardrail" arn] := rfl
    simpa using bind_ok_err hemit (bind_err hguard)
  have hrun : delete_resources [arn] w =
      .err (.notFound arn) w [Event.dispatch "delete_guardrail" arn] := by
    unfold delete_resources delete_actions runActions
    exact bind_err hsweep
  rw [hrun]
  exact ⟨rfl, rfl, by simp [Res.trace, List.filter, isDispatch]⟩

/-- Concrete empty world for the C3 witness. -/
def wC3b : AwsWorld := ⟨[], [], [], [], [], [], [], [], [], [], [], "1"⟩

/-- Witness for the amended claim C3 at the concrete stale identifier. -/
theorem second_run_stale_guardrail_faults_witness :
    (parse_arn arnC3 = Except.ok ("bedrock", "guardrail/g1") ∧
      reMatch1 "guardrail/" "guardrail/g1" = some "g1" ∧
      wC3b.guardrails.contains arnC3 = false) ∧
    ((delete_resources [arnC3] wC3b).isOk = false ∧
      (delete_resources [arnC3] wC3b).world = wC3b ∧
      (delete_resources [arnC3] wC3b).trace.filter (fun e => !isDispatch e) = []) :=
  ⟨⟨by decide, by decide, by decide⟩,
   second_run_stale_guardrail_faults wC3b arnC3 "guardrail/g1" "g1" (by decide) (by decide)
     (by decide)⟩

/-- On an existing function, create_lambda catches the conflict, fetches the
existing function, and returns its configuration descriptor unchanged, with
no world mutation and no effectful call. -/
theorem create_lambda_existing (w : AwsWorld) (fname : String) (rr : RoleResponse)
    (f : LambdaFunction) (hf : w.functions.find? (fun g => g.functionName == fname) = some f) :
    create_lambda fname rr w = Res.ok f w [] := by
  have hc : lambdaCreateFunction fname rr.role.arn w = .err (.conflict fname) w [] := by
    unfold lambdaCreateFunction
    rw [hf]
  have hg : lambdaGetFunction fname w = .ok ⟨f⟩ w [] := by
    unfold lambdaGetFunction
    rw [hf]
  have hh : (lambdaGetFunction fname >>= fun gf => pure gf.configuration) w = .ok f w [] := by
    rw [bind_apply, hg]
    rfl
  unfold create_lambda catchWhen
  simp [hc, hh, isConflict]

/-- On an existing role, the create-role try/except returns the existing
role record in the create response shape, with no world mutation. -/
theorem createOrGetRole_existing (w : AwsWorld) (rname : String) (ro : Role)
    (hr : w.roles.find? (fun r => r.roleName == rname) = some ro) :
    createOrGetRole rname w = Res.ok ⟨ro⟩ w [] := by
  have hc : iamCreateRole rname w = .err (.conflict rname) w [] := by
    unfold iamCreateRole
    rw [hr]
  have hg : iamGetRole rname w = .ok ⟨ro⟩ w [] := by
    unfold iamGetRole
    rw [hr]
  unfold createOrGetRole catchWhen
  simp [hc, hg, isConflict]

/-- On an existing policy whose ARN matches the account-derived ARN the
fallback constructs, the create-policy try/except returns the existing
policy in the create response shape, with no world mutation. -/
theorem createOrGetPolicy_existing (w : AwsWorld) (pn : String) (p : IamPolicy)
    (h1 : (w.policies.find? (fun q => q.policyName == pn)).isSome = true)
    (h2 : w.policies.find? (fun q =>
      q.arn == "arn:aws:iam::" ++ w.account ++ ":policy/" ++ pn) = some p) :
    createOrGetPolicy pn w = Res.ok ⟨p⟩ w [] := by
  obtain ⟨q, hq⟩ := Option.isSome_iff_exists.mp h1
  have hc : iamCreatePolicy pn w = .err (.conflict pn) w [] := by
    unfold iamCreatePolicy
    rw [hq]
  have hg : iamGetPolicy ("arn:aws:iam::" ++ w.account ++ ":policy/" ++ pn) w = .ok ⟨p⟩ w [] := by
    unfold iamGetPolicy
    rw [h2]
  have hacc : stsAccount w = .ok w.account w [] := rfl
  have hcw : catchWhen isConflict (iamCreatePolicy pn)
      (iamGetPolicy ("arn:aws:iam::" ++ w.account ++ ":policy/" ++ pn)) w = .ok ⟨p⟩ w [] := by
    unfold catchWhen
    simp [hc, hg, isConflict]
  unfold createOrGetPolicy
  simpa using bind_ok_ok hacc hcw

/-- Attaching a policy to an existing role succeeds and rewrites exactly
that role record. -/
theorem iamAttachRolePolicy_existing (rname parn : String) (w : AwsWorld) (ro : Role)
    (h : w.roles.find? (fun r => r.roleName == rname) = some ro) :
    iamAttachRolePolicy rname parn w =
      .ok ()
        { w with roles := w.roles.map (fun r =>
            if r.roleName == rname then { r with attached := r.attached ++ [⟨parn, parn⟩] }
            else r) }
        [Event.attachRolePolicy rname parn] := by
  unfold iamAttachRolePolicy
  rw [h]

/-- The attach rewrite keeps the role findable under its name. -/
theorem find?_map_attach (rname parn : String) (l : List Role) (ro : Role)
    (h : l.find? (fun r => r.roleName == rname) = some ro) :
    (l.map (fun r => if r.roleName == rname then
        { r with attached := r.attached ++ [⟨parn, parn⟩] } else r)).find?
      (fun r => r.roleName == rname) =
      some { ro with attached := ro.attached ++ [⟨parn, parn⟩] } := by
  rw [List.find?_map]
  have hcomp : ((fun r : Role => r.roleName == rname) ∘ (fun r : Role =>
      if r.roleName == rname then { r with attached := r.attached ++ [⟨parn, parn⟩] } else r)) =
      (fun r : Role => r.roleName == rname) := by
    funext r
    by_cases hr : (r.roleName == rname) = true <;> simp [Function.comp, hr]
  rw [hcomp, h]
  have hro := @List.find?_some Role (fun r => r.roleName == rname) ro l h
  simp only at hro
  simp [hro]
  intro hne
  exact absurd (by simpa using hro) hne

/-- On an existing role and policy, create_lambda_role follows the
fetch-existing path throughout and still returns the existing role record
it obtained up front. -/
theorem create_lambda_role_existing (w : AwsWorld) (agent_name tbl : String) (ro : Role)
    (p : IamPolicy)
    (hr : w.roles.find? (fun r => r.roleName == agent_name ++ "-lambda-role") = some ro)
    (h1 : (w.policies.find? (fun q =>
      q.policyName == agent_name ++ "-dynamodb-policy")).isSome = true)
    (h2 : w.policies.find? (fun q =>
      q.arn == "arn:aws:iam::" ++ w.account ++ ":policy/" ++ (agent_name ++ "-dynamodb-policy")) =
        some p) :
    ∃ w' tr, create_lambda_role agent_name tbl w = Res.ok ⟨ro⟩ w' tr := by
  unfold create_lambda_role
  exact ⟨_, _, bind_ok_ok (createOrGetRole_existing w _ ro hr)
    (bind_ok_ok (iamAttachRolePolicy_existing _ _ w ro hr)
      (bind_ok_ok (createOrGetPolicy_existing _ _ p h1 h2)
        (bind_ok_ok (iamAttachRolePolicy_existing _ _ _ _ (find?_map_attach _ _ _ ro hr))
          (pure_apply _ _))))⟩

/-- Claim C9: every create-or-get provisioning helper (Lambda function, IAM
role, IAM policy, and the composite create_lambda_role) catches the
already-exists conflict, fetches the existing resource, and returns the
existing descriptor in the same shape a successful create would have
returned, so callers cannot tell which path was taken. -/
theorem create_or_get_returns_existing :
    (∀ (w : AwsWorld) (fname : String) (rr : RoleResponse) (f : LambdaFunction),
      w.functions.find? (fun g => g.functionName == fname) = some f →
      create_lambda fname rr w = Res.ok f w []) ∧
    (∀ (w : AwsWorld) (rname : String) (ro : Role),
      w.roles.find? (fun r => r.roleName == rname) = some ro →
      createOrGetRole rname w = Res.ok ⟨ro⟩ w []) ∧
    (∀ (w : AwsWorld) (pn : String) (p : IamPolicy),
      (w.policies.find? (fun q => q.policyName == pn)).isSome = true →
      w.policies.find? (fun q => q.arn == "arn:aws:iam::" ++ w.account ++ ":policy/" ++ pn) =
        some p →
      createOrGetPolicy pn w = Res.ok ⟨p⟩ w []) ∧
    (∀ (w : AwsWorld) (agent_name tbl : String) (ro : Role) (p : IamPolicy),
      w.roles.find? (fun r => r.roleName == agent_name ++ "-lambda-role") = some ro →
      (w.policies.find? (fun q =>
        q.policyName == agent_name ++ "-dynamodb-policy")).isSome = true →
      w.policies.find? (fun q =>
        q.arn == "arn:aws:iam::" ++ w.account ++ ":policy/" ++
          (agent_name ++ "-dynamodb-policy")) = some p →
      ∃ w' tr, create_lambda_role agent_name tbl w = Res.ok ⟨ro⟩ w' tr) :=
  ⟨create_lambda_existing, createOrGetRole_existing, createOrGetPolicy_existing,
   create_lambda_role_existing⟩

/-- Concrete role for the C9 witness. -/
def roC9 : Role := ⟨"ag-lambda-role", "arn:aws:iam::1:role/ag-lambda-role", [], [], []⟩

/-- Concrete policy for the C9 witness. -/
def pC9 : IamPolicy := ⟨"arn:aws:iam::1:policy/ag-dynamodb-policy", "ag-dynamodb-policy", [⟨"v1", true⟩]⟩

/-- Concrete world for the C9 witness: the function, role and policy all
already exist. -/
def wC9 : AwsWorld :=
  ⟨[], [], [], [], [], [], [⟨"fn", "oldrole"⟩], [roC9], [pC9], [], [], "1"⟩

/-- Witness for claim C9 at a world where everything already exists: every
helper returns the pre-existing descriptor. -/
theorem create_or_get_returns_existing_witness :
    create_lambda "fn" ⟨roC9⟩ wC9 = Res.ok ⟨"fn", "oldrole"⟩ wC9 [] ∧
    createOrGetRole "ag-lambda-role" wC9 = Res.ok ⟨roC9⟩ wC9 [] ∧
    createOrGetPolicy "ag-dynamodb-policy" wC9 = Res.ok ⟨pC9⟩ wC9 [] ∧
    (∃ w' tr, create_lambda_role "ag" "tbl" wC9 = Res.ok ⟨roC9⟩ w' tr) :=
  ⟨create_or_get_returns_existing.1 wC9 "fn" ⟨roC9⟩ ⟨"fn", "oldrole"⟩ (by decide),
   create_or_get_returns_existing.2.1 wC9 "ag-lambda-role" roC9 (by decide),
   create_or_get_returns_existing.2.2.1 wC9 "ag-dynamodb-policy" pC9 (by decide) (by decide),
   create_or_get_returns_existing.2.2.2 wC9 "ag" "tbl" roC9 pC9 (by decide) (by decide)
     (by decide)⟩

end CleanupSpec
